import Mathlib

/-! OpenMPT `soundbase/SampleBuffer.h`: audio buffer views

A shallow embedding of the non-owning audio buffer views of
`soundbase/SampleBuffer.h` and proofs about their addressing.

Conventions of the embedding.

* `std::size_t` values are natural numbers; the platform width `w` (in bits) is
  a parameter and every `std::size_t` operation of the source is reduced
  modulo `2 ^ w` (`size_mul`, `size_add`, `size_sub`).
* A `SampleType *` is a `Ptr`: `nullptr` or the address of a sample cell,
  addresses counted in samples.  The views never touch sample values, only
  addresses, so the sample type is not a parameter of the view structures.
* A `SampleType &` returned by `operator()` is the address of the cell it
  refers to; `none` stands for undefined behaviour (subscripting `nullptr`,
  reading past the plane array, reading the inactive member of the union).
* A `SampleType *const *` (array of per-channel pointers) is the list of the
  pointers it points to.
* The const and the non-const overload of a member function are embedded
  separately (`f` and `f_const`), each from its own body in the source.
-/

namespace OpenMPT

/-! ## `std::size_t` arithmetic -/

/-- Product of two `std::size_t` values on a platform with `w`-bit `std::size_t`. -/
def size_mul (w a b : Nat) : Nat := (a * b) % 2 ^ w

/-- Sum of two `std::size_t` values on a platform with `w`-bit `std::size_t`. -/
def size_add (w a b : Nat) : Nat := (a + b) % 2 ^ w

/-- Difference of two `std::size_t` values on a platform with `w`-bit `std::size_t`. -/
def size_sub (w a b : Nat) : Nat := (a + (2 ^ w - b % 2 ^ w)) % 2 ^ w

/-! ## Pointers and sample memory -/

/-- A `SampleType *`: the null pointer or the address of a sample cell. -/
inductive Ptr where
  | null : Ptr
  | addr (a : Nat) : Ptr
deriving DecidableEq

/-- The null marker `nullptr`. -/
def nullptr : Ptr := Ptr.null

/-- The lvalue `p[i]`: the address of element `i` of the buffer starting at `p`;
undefined (`none`) when `p` is null. -/
def Ptr.subscript : Ptr → Nat → Option Nat
  | Ptr.null, _ => none
  | Ptr.addr a, i => some (a + i)

/-- Pointer arithmetic `p + n`; `nullptr + 0` is `nullptr`, `nullptr + n` for
`n > 0` is undefined. -/
def Ptr.add : Ptr → Nat → Option Ptr
  | Ptr.null, 0 => some Ptr.null
  | Ptr.null, _ + 1 => none
  | Ptr.addr a, n => some (Ptr.addr (a + n))

/-- Sample memory: the value stored in each allocated cell. -/
abbrev Memory (α : Type) := Nat → Option α

/-- Reading through a reference returned by `operator()`. -/
def load {α : Type} (mem : Memory α) (ref : Option Nat) : Option α := ref.bind mem

/-- Writing `v` through a reference returned by `operator()`. -/
def store {α : Type} (mem : Memory α) (ref : Option Nat) (v : α) : Option (Memory α) :=
  ref.bind (fun a => if (mem a).isSome then some (Function.update mem a (some v)) else none)

/-- The memory holding the samples `xs` in consecutive cells from address `base`. -/
def Memory.ofList {α : Type} (base : Nat) (xs : List α) : Memory α :=
  fun a => if base ≤ a then xs[a - base]? else none

/-! ## The view interface shared by all buffer types

`audio_buffer_with_offset<Taudio_buffer>` is a template over any type with
these member functions. -/

/-- The member functions every audio buffer view type provides. -/
class AudioBufferView (B : Type) where
  data : Nat → B → Option Ptr
  data_const : Nat → B → Option Ptr
  operator_call : Nat → B → Nat → Nat → Option Nat
  operator_call_const : Nat → B → Nat → Nat → Option Nat
  is_contiguous : B → Bool
  channels_are_contiguous : B → Bool
  frames_are_contiguous : B → Bool
  size_channels : B → Nat
  size_frames : Nat → B → Nat
  size_samples : Nat → B → Nat

/-! ## `audio_buffer_planar` -/

/-- The fields of `audio_buffer_planar`; `mk buffers channels frames` is its constructor. -/
structure audio_buffer_planar where
  m_buffers : List Ptr
  m_channels : Nat
  m_frames : Nat

namespace audio_buffer_planar

/-- Member `data()`: `return nullptr;`. -/
def data (_self : audio_buffer_planar) : Option Ptr := some nullptr

/-- Member `data() const`: `return nullptr;`. -/
def data_const (_self : audio_buffer_planar) : Option Ptr := some nullptr

/-- Member `operator()`: `return m_buffers[channel][frame];`. -/
def operator_call (self : audio_buffer_planar) (channel frame : Nat) : Option Nat :=
  (self.m_buffers[channel]?).bind (fun p => p.subscript frame)

/-- Member `operator() const`: `return m_buffers[channel][frame];`. -/
def operator_call_const (self : audio_buffer_planar) (channel frame : Nat) : Option Nat :=
  (self.m_buffers[channel]?).bind (fun p => p.subscript frame)

/-- Member `is_contiguous()`: `return false;`. -/
def is_contiguous (_self : audio_buffer_planar) : Bool := false

/-- Member `channels_are_contiguous()`: `return false;`. -/
def channels_are_contiguous (_self : audio_buffer_planar) : Bool := false

/-- Member `frames_are_contiguous()`: `return false;`. -/
def frames_are_contiguous (_self : audio_buffer_planar) : Bool := false

/-- Member `size_channels()`: `return m_channels;`. -/
def size_channels (self : audio_buffer_planar) : Nat := self.m_channels

/-- Member `size_frames()`: `return m_frames;`. -/
def size_frames (self : audio_buffer_planar) : Nat := self.m_frames

/-- Member `size_samples()`: `return m_channels * m_frames;`. -/
def size_samples (w : Nat) (self : audio_buffer_planar) : Nat :=
  size_mul w self.m_channels self.m_frames

end audio_buffer_planar

instance : AudioBufferView audio_buffer_planar where
  data := fun _ v => v.data
  data_const := fun _ v => v.data_const
  operator_call := fun _ v c f => v.operator_call c f
  operator_call_const := fun _ v c f => v.operator_call_const c f
  is_contiguous := audio_buffer_planar.is_contiguous
  channels_are_contiguous := audio_buffer_planar.channels_are_contiguous
  frames_are_contiguous := audio_buffer_planar.frames_are_contiguous
  size_channels := audio_buffer_planar.size_channels
  size_frames := fun _ v => v.size_frames
  size_samples := audio_buffer_planar.size_samples

/-! ## `audio_buffer_contiguous` -/

/-- The fields of `audio_buffer_contiguous`; `mk buffer channels frames` is its constructor. -/
structure audio_buffer_contiguous where
  m_buffer : Ptr
  m_channels : Nat
  m_frames : Nat

namespace audio_buffer_contiguous

/-- Member `data()`: `return m_buffer;`. -/
def data (self : audio_buffer_contiguous) : Option Ptr := some self.m_buffer

/-- Member `data() const`: `return m_buffer;`. -/
def data_const (self : audio_buffer_contiguous) : Option Ptr := some self.m_buffer

/-- Member `operator()`: `return m_buffer[(m_frames * channel) + frame];`. -/
def operator_call (w : Nat) (self : audio_buffer_contiguous) (channel frame : Nat) :
    Option Nat :=
  self.m_buffer.subscript (size_add w (size_mul w self.m_frames channel) frame)

/-- Member `operator() const`: `return m_buffer[(m_frames * channel) + frame];`. -/
def operator_call_const (w : Nat) (self : audio_buffer_contiguous) (channel frame : Nat) :
    Option Nat :=
  self.m_buffer.subscript (size_add w (size_mul w self.m_frames channel) frame)

/-- Member `is_contiguous()`: `return true;`. -/
def is_contiguous (_self : audio_buffer_contiguous) : Bool := true

/-- Member `channels_are_contiguous()`: `return true;`. -/
def channels_are_contiguous (_self : audio_buffer_contiguous) : Bool := true

/-- Member `frames_are_contiguous()`: `return false;`. -/
def frames_are_contiguous (_self : audio_buffer_contiguous) : Bool := false

/-- Member `size_channels()`: `return m_channels;`. -/
def size_channels (self : audio_buffer_contiguous) : Nat := self.m_channels

/-- Member `size_frames()`: `return m_frames;`. -/
def size_frames (self : audio_buffer_contiguous) : Nat := self.m_frames

/-- Member `size_samples()`: `return m_channels * m_frames;`. -/
def size_samples (w : Nat) (self : audio_buffer_contiguous) : Nat :=
  size_mul w self.m_channels self.m_frames

end audio_buffer_contiguous

instance : AudioBufferView audio_buffer_contiguous where
  data := fun _ v => v.data
  data_const := fun _ v => v.data_const
  operator_call := audio_buffer_contiguous.operator_call
  operator_call_const := audio_buffer_contiguous.operator_call_const
  is_contiguous := audio_buffer_contiguous.is_contiguous
  channels_are_contiguous := audio_buffer_contiguous.channels_are_contiguous
  frames_are_contiguous := audio_buffer_contiguous.frames_are_contiguous
  size_channels := audio_buffer_contiguous.size_channels
  size_frames := fun _ v => v.size_frames
  size_samples := audio_buffer_contiguous.size_samples

/-! ## `audio_buffer_interleaved` -/

/-- The fields of `audio_buffer_interleaved`; `mk buffer channels frames` is its constructor. -/
structure audio_buffer_interleaved where
  m_buffer : Ptr
  m_channels : Nat
  m_frames : Nat

namespace audio_buffer_interleaved

/-- Member `data()`: `return m_buffer;`. -/
def data (self : audio_buffer_interleaved) : Option Ptr := some self.m_buffer

/-- Member `data() const`: `return m_buffer;`. -/
def data_const (self : audio_buffer_interleaved) : Option Ptr := some self.m_buffer

/-- Member `operator()`: `return m_buffer[m_channels * frame + channel];`. -/
def operator_call (w : Nat) (self : audio_buffer_interleaved) (channel frame : Nat) :
    Option Nat :=
  self.m_buffer.subscript (size_add w (size_mul w self.m_channels frame) channel)

/-- Member `operator() const`: `return m_buffer[m_channels * frame + channel];`. -/
def operator_call_const (w : Nat) (self : audio_buffer_interleaved) (channel frame : Nat) :
    Option Nat :=
  self.m_buffer.subscript (size_add w (size_mul w self.m_channels frame) channel)

/-- Member `is_contiguous()`: `return true;`. -/
def is_contiguous (_self : audio_buffer_interleaved) : Bool := true

/-- Member `channels_are_contiguous()`: `return false;`. -/
def channels_are_contiguous (_self : audio_buffer_interleaved) : Bool := false

/-- Member `frames_are_contiguous()`: `return true;`. -/
def frames_are_contiguous (_self : audio_buffer_interleaved) : Bool := true

/-- Member `size_channels()`: `return m_channels;`. -/
def size_channels (self : audio_buffer_interleaved) : Nat := self.m_channels

/-- Member `size_frames()`: `return m_frames;`. -/
def size_frames (self : audio_buffer_interleaved) : Nat := self.m_frames

/-- Member `size_samples()`: `return m_channels * m_frames;`. -/
def size_samples (w : Nat) (self : audio_buffer_interleaved) : Nat :=
  size_mul w self.m_channels self.m_frames

end audio_buffer_interleaved

instance : AudioBufferView audio_buffer_interleaved where
  data := fun _ v => v.data
  data_const := fun _ v => v.data_const
  operator_call := audio_buffer_interleaved.operator_call
  operator_call_const := audio_buffer_interleaved.operator_call_const
  is_contiguous := audio_buffer_interleaved.is_contiguous
  channels_are_contiguous := audio_buffer_interleaved.channels_are_contiguous
  frames_are_contiguous := audio_buffer_interleaved.frames_are_contiguous
  size_channels := audio_buffer_interleaved.size_channels
  size_frames := fun _ v => v.size_frames
  size_samples := audio_buffer_interleaved.size_samples

/-! ## The runtime-polymorphic `audio_buffer` -/

/-- The anonymous union member `m_buffer` of `audio_buffer`: the member last
written is the active one. -/
inductive audio_buffer_union where
  | contiguous (p : Ptr) : audio_buffer_union
  | planes (ps : List Ptr) : audio_buffer_union

/-- The fields of the runtime-polymorphic `audio_buffer`. -/
structure audio_buffer where
  m_buffer : audio_buffer_union
  m_frame_stride : Nat
  m_channel_stride : Nat
  m_channels : Nat
  m_frames : Nat

namespace audio_buffer

/-- Constructor taking the tag `audio_buffer_frames_are_contiguous_t`:
`m_frame_stride(channels), m_channel_stride(1)`, `m_buffer.contiguous = buffer`. -/
def mk_frames_are_contiguous (buffer : Ptr) (channels frames : Nat) : audio_buffer :=
  audio_buffer.mk (audio_buffer_union.contiguous buffer) channels 1 channels frames

/-- Constructor taking the tag `audio_buffer_channels_are_contiguous_t`:
`m_frame_stride(1), m_channel_stride(frames)`, `m_buffer.contiguous = buffer`. -/
def mk_channels_are_contiguous (buffer : Ptr) (channels frames : Nat) : audio_buffer :=
  audio_buffer.mk (audio_buffer_union.contiguous buffer) 1 frames channels frames

/-- Constructor taking the tag `audio_buffer_channels_are_planar_t`:
`m_frame_stride(1), m_channel_stride(0)`, `m_buffer.planes = planes`. -/
def mk_channels_are_planar (planes : List Ptr) (channels frames : Nat) : audio_buffer :=
  audio_buffer.mk (audio_buffer_union.planes planes) 1 0 channels frames

/-- Constructor taking the tag `audio_buffer_channels_are_planar_and_strided_t`:
`m_frame_stride(frame_stride), m_channel_stride(0)`, `m_buffer.planes = planes`. -/
def mk_channels_are_planar_and_strided (planes : List Ptr) (channels frames frame_stride : Nat) :
    audio_buffer :=
  audio_buffer.mk (audio_buffer_union.planes planes) frame_stride 0 channels frames

/-- Member `is_contiguous()`: `return (m_channel_stride != 0);`. -/
def is_contiguous (self : audio_buffer) : Bool := self.m_channel_stride != 0

/-- Member `data()`: `return is_contiguous() ? m_buffer.contiguous : nullptr;`. -/
def data (self : audio_buffer) : Option Ptr :=
  if self.is_contiguous then
    match self.m_buffer with
    | audio_buffer_union.contiguous p => some p
    | audio_buffer_union.planes _ => none
  else some nullptr

/-- Member `data() const`: `return is_contiguous() ? m_buffer.contiguous : nullptr;`. -/
def data_const (self : audio_buffer) : Option Ptr :=
  if self.is_contiguous then
    match self.m_buffer with
    | audio_buffer_union.contiguous p => some p
    | audio_buffer_union.planes _ => none
  else some nullptr

/-- Member `operator()`:
`return is_contiguous() ? m_buffer.contiguous[(m_channel_stride * channel) + (m_frame_stride * frame)] : m_buffer.planes[channel][frame * m_frame_stride];`. -/
def operator_call (w : Nat) (self : audio_buffer) (channel frame : Nat) : Option Nat :=
  if self.is_contiguous then
    match self.m_buffer with
    | audio_buffer_union.contiguous p =>
      p.subscript (size_add w (size_mul w self.m_channel_stride channel)
        (size_mul w self.m_frame_stride frame))
    | audio_buffer_union.planes _ => none
  else
    match self.m_buffer with
    | audio_buffer_union.planes ps =>
      (ps[channel]?).bind (fun p => p.subscript (size_mul w frame self.m_frame_stride))
    | audio_buffer_union.contiguous _ => none

/-- Member `operator() const`, same body as `operator()`. -/
def operator_call_const (w : Nat) (self : audio_buffer) (channel frame : Nat) : Option Nat :=
  if self.is_contiguous then
    match self.m_buffer with
    | audio_buffer_union.contiguous p =>
      p.subscript (size_add w (size_mul w self.m_channel_stride channel)
        (size_mul w self.m_frame_stride frame))
    | audio_buffer_union.planes _ => none
  else
    match self.m_buffer with
    | audio_buffer_union.planes ps =>
      (ps[channel]?).bind (fun p => p.subscript (size_mul w frame self.m_frame_stride))
    | audio_buffer_union.contiguous _ => none

/-- Member `channels_are_contiguous()`: `return (m_channel_stride == m_frames);`. -/
def channels_are_contiguous (self : audio_buffer) : Bool :=
  self.m_channel_stride == self.m_frames

/-- Member `frames_are_contiguous()`: `return (m_frame_stride == m_channels);`. -/
def frames_are_contiguous (self : audio_buffer) : Bool :=
  self.m_frame_stride == self.m_channels

/-- Member `size_channels()`: `return m_channels;`. -/
def size_channels (self : audio_buffer) : Nat := self.m_channels

/-- Member `size_frames()`: `return m_frames;`. -/
def size_frames (self : audio_buffer) : Nat := self.m_frames

/-- Member `size_samples()`: `return m_channels * m_frames;`. -/
def size_samples (w : Nat) (self : audio_buffer) : Nat :=
  size_mul w self.m_channels self.m_frames

end audio_buffer

instance : AudioBufferView audio_buffer where
  data := fun _ v => v.data
  data_const := fun _ v => v.data_const
  operator_call := audio_buffer.operator_call
  operator_call_const := audio_buffer.operator_call_const
  is_contiguous := audio_buffer.is_contiguous
  channels_are_contiguous := audio_buffer.channels_are_contiguous
  frames_are_contiguous := audio_buffer.frames_are_contiguous
  size_channels := audio_buffer.size_channels
  size_frames := fun _ v => v.size_frames
  size_samples := audio_buffer.size_samples

/-! ## `audio_buffer_with_offset` -/

/-- The fields of `audio_buffer_with_offset<Taudio_buffer>`;
`mk buffer offsetFrames` is its constructor. -/
structure audio_buffer_with_offset (B : Type) where
  m_buffer : B
  m_offset : Nat

namespace audio_buffer_with_offset

variable {B : Type} [AudioBufferView B]

/-- Member `is_contiguous()`:
`return m_buffer.is_contiguous() && m_buffer.frames_are_contiguous();`. -/
def is_contiguous (self : audio_buffer_with_offset B) : Bool :=
  AudioBufferView.is_contiguous self.m_buffer && AudioBufferView.frames_are_contiguous self.m_buffer

/-- Member `channels_are_contiguous()`: `return m_buffer.channels_are_contiguous();`. -/
def channels_are_contiguous (self : audio_buffer_with_offset B) : Bool :=
  AudioBufferView.channels_are_contiguous self.m_buffer

/-- Member `frames_are_contiguous()`: `return m_buffer.frames_are_contiguous();`. -/
def frames_are_contiguous (self : audio_buffer_with_offset B) : Bool :=
  AudioBufferView.frames_are_contiguous self.m_buffer

/-- Member `size_channels()`: `return m_buffer.size_channels();`. -/
def size_channels (self : audio_buffer_with_offset B) : Nat :=
  AudioBufferView.size_channels self.m_buffer

/-- Member `size_frames()`: `return m_buffer.size_frames() - m_offset;`. -/
def size_frames (w : Nat) (self : audio_buffer_with_offset B) : Nat :=
  size_sub w (AudioBufferView.size_frames w self.m_buffer) self.m_offset

/-- Member `size_samples()`: `return size_channels() * size_frames();`. -/
def size_samples (w : Nat) (self : audio_buffer_with_offset B) : Nat :=
  size_mul w self.size_channels (self.size_frames w)

/-- Member `data()`: null when `!is_contiguous()`, else
`m_buffer.data() + (size_channels() * m_offset)`. -/
def data (w : Nat) (self : audio_buffer_with_offset B) : Option Ptr :=
  if !self.is_contiguous then some nullptr
  else (AudioBufferView.data w self.m_buffer).bind
    (fun p => p.add (size_mul w self.size_channels self.m_offset))

/-- Member `data() const`, same body as `data()` over the const members. -/
def data_const (w : Nat) (self : audio_buffer_with_offset B) : Option Ptr :=
  if !self.is_contiguous then some nullptr
  else (AudioBufferView.data_const w self.m_buffer).bind
    (fun p => p.add (size_mul w self.size_channels self.m_offset))

/-- Member `operator()`: `return m_buffer(channel, m_offset + frame);`. -/
def operator_call (w : Nat) (self : audio_buffer_with_offset B) (channel frame : Nat) :
    Option Nat :=
  AudioBufferView.operator_call w self.m_buffer channel (size_add w self.m_offset frame)

/-- Member `operator() const`: `return m_buffer(channel, m_offset + frame);`. -/
def operator_call_const (w : Nat) (self : audio_buffer_with_offset B) (channel frame : Nat) :
    Option Nat :=
  AudioBufferView.operator_call_const w self.m_buffer channel (size_add w self.m_offset frame)

end audio_buffer_with_offset

instance {B : Type} [AudioBufferView B] : AudioBufferView (audio_buffer_with_offset B) where
  data := audio_buffer_with_offset.data
  data_const := audio_buffer_with_offset.data_const
  operator_call := audio_buffer_with_offset.operator_call
  operator_call_const := audio_buffer_with_offset.operator_call_const
  is_contiguous := audio_buffer_with_offset.is_contiguous
  channels_are_contiguous := audio_buffer_with_offset.channels_are_contiguous
  frames_are_contiguous := audio_buffer_with_offset.frames_are_contiguous
  size_channels := audio_buffer_with_offset.size_channels
  size_frames := audio_buffer_with_offset.size_frames
  size_samples := audio_buffer_with_offset.size_samples

/-! ## Storage descriptions for the three layouts

What it means for raw storage to hold a logical content `s channel frame`,
stated from the layout descriptions and independently of the view types. -/

/-- The interleaved storage at `buffer` holds `s`: the sample of channel `c` and
frame `f` is the storage element at index `f * C + c`. -/
def InterleavedStorageHolds {α : Type} (mem : Memory α) (buffer : Ptr) (C F : Nat)
    (s : Nat → Nat → α) : Prop :=
  ∀ c, c < C → ∀ f, f < F → load mem (buffer.subscript (f * C + c)) = some (s c f)

/-- The channel-contiguous storage at `buffer` holds `s`: the sample of channel `c`
and frame `f` is the storage element at index `c * F + f`. -/
def ContiguousStorageHolds {α : Type} (mem : Memory α) (buffer : Ptr) (C F : Nat)
    (s : Nat → Nat → α) : Prop :=
  ∀ c, c < C → ∀ f, f < F → load mem (buffer.subscript (c * F + f)) = some (s c f)

/-- The planar storage `planes` holds `s`: the sample of channel `c` and frame `f`
is at position `f` of plane `c`. -/
def PlanarStorageHolds {α : Type} (mem : Memory α) (planes : List Ptr) (C F : Nat)
    (s : Nat → Nat → α) : Prop :=
  ∀ c, c < C → ∀ f, f < F →
    ∃ p, planes[c]? = some p ∧ load mem (p.subscript f) = some (s c f)

/-- A memory with three disjoint regions of `C * F` cells holding `s` in interleaved
order (from address 0), in channel-contiguous order (from `C * F`) and as `C` planes of
`F` cells (from `2 * (C * F)`). -/
def threeLayoutMemory {α : Type} (C F : Nat) (s : Nat → Nat → α) : Memory α :=
  fun a =>
    if a < C * F then some (s (a % C) (a / C))
    else if a < 2 * (C * F) then some (s ((a - C * F) / F) ((a - C * F) % F))
    else if a < 3 * (C * F) then some (s ((a - 2 * (C * F)) / F) ((a - 2 * (C * F)) % F))
    else none

/-- The plane pointers of the third region of `threeLayoutMemory`. -/
def threeLayoutPlanes (C F : Nat) : List Ptr :=
  (List.range C).map (fun c => Ptr.addr (2 * (C * F) + c * F))

/-! ## `planar_audio_buffer_valid_channels` -/

/-- The loop of `planar_audio_buffer_valid_channels`, entered with the counter at
`channel`:
`for(; channel < maxChannels; ++channel) { if(!buffers[channel]) break; } return channel;`.
The result is the final counter together with the indices of `buffers` the loop read
(`reads`, a ghost record that is not part of the source); `none` is a read past the
end of the array.  `++channel` cannot wrap: it is only executed with
`channel < maxChannels`, and `maxChannels` is a `std::size_t` value. -/
def planar_audio_buffer_valid_channels_loop (buffers : List Ptr) (maxChannels : Nat)
    (channel : Nat) (reads : List Nat) : Option (Nat × List Nat) :=
  if _h : channel < maxChannels then
    match buffers[channel]? with
    | none => none
    | some Ptr.null => some (channel, reads ++ [channel])
    | some (Ptr.addr _) =>
      planar_audio_buffer_valid_channels_loop buffers maxChannels (channel + 1)
        (reads ++ [channel])
  else some (channel, reads)
termination_by maxChannels - channel
decreasing_by omega

/-- Function `planar_audio_buffer_valid_channels(buffers, maxChannels)`: the loop run
from `channel = 0`, returning the counter. -/
def planar_audio_buffer_valid_channels (buffers : List Ptr) (maxChannels : Nat) :
    Option Nat :=
  (planar_audio_buffer_valid_channels_loop buffers maxChannels 0 []).map Prod.fst

/-- The indices of `buffers` that `planar_audio_buffer_valid_channels` reads, in order. -/
def planar_audio_buffer_valid_channels_reads (buffers : List Ptr) (maxChannels : Nat) :
    Option (List Nat) :=
  (planar_audio_buffer_valid_channels_loop buffers maxChannels 0 []).map Prod.snd

/-- Entry `i` of the pointer array exists and is not null. -/
def non_null_at (buffers : List Ptr) (i : Nat) : Bool :=
  match buffers[i]? with
  | some (Ptr.addr _) => true
  | _ => false

/-- The number of non-null entries among the first `maxChannels` entries of the array. -/
def count_non_null (buffers : List Ptr) (maxChannels : Nat) : Nat :=
  (List.range maxChannels).countP (non_null_at buffers)

/-- The non-null entries among the first `maxChannels` form a prefix of the array: no
non-null entry comes after a null one. -/
def NonNullFormPrefix (buffers : List Ptr) (maxChannels : Nat) : Prop :=
  ∀ i j, i < j → j < maxChannels → non_null_at buffers j = true →
    non_null_at buffers i = true

/-! ## `make_audio_buffer_with_offset` -/

/-- The outcome of a violated `MPT_ASSERT`. -/
inductive AssertionViolation where
  | assertion_violated : AssertionViolation
deriving DecidableEq

/-- Modelled from the spec: the macro `MPT_ASSERT` of `common/mptBaseMacros.h`, which is
not among the sources.  The spec treats a failed assertion as a precondition violation
that makes the construction fail, not as a recoverable error: the macro passes when its
condition holds and stops the function otherwise. -/
def MPT_ASSERT (cond : Bool) : Except AssertionViolation Unit :=
  if cond then Except.ok () else Except.error AssertionViolation.assertion_violated

/-- Function `make_audio_buffer_with_offset(buf, numFrames)`:
`MPT_ASSERT(numFrames <= buf.size_frames()); return audio_buffer_with_offset<BufferType>{buf, numFrames};`. -/
def make_audio_buffer_with_offset {B : Type} [AudioBufferView B] (w : Nat) (buf : B)
    (numFrames : Nat) : Except AssertionViolation (audio_buffer_with_offset B) :=
  (MPT_ASSERT (decide (numFrames ≤ AudioBufferView.size_frames w buf))).bind
    (fun _ => Except.ok (audio_buffer_with_offset.mk buf numFrames))

/-! ## Frame steps -/

/-- The references `r` and `r'` address positions of the same buffer `base` that lie
exactly `step` sample positions apart (`r'` after `r`). -/
def OneFrameApart (base : Ptr) (r r' : Option Nat) (step : Nat) : Prop :=
  ∃ i, r = base.subscript i ∧ r' = base.subscript (i + step)

/-! ## Bulk addressing through the offset adapter -/

/-- The adapter's `data()` is usable for bulk access: it is the wrapped view's `data()`
advanced by `size_channels() * m_offset` samples, it addresses the adapter's sample
`(0, 0)`, and for every valid `(c, f)` of the adapter the element
`data()[f * size_channels() + c]` is what `operator()(c, f)` refers to (both overloads). -/
def OffsetDataAddressesSamples (w : Nat) {B : Type} [AudioBufferView B]
    (A : audio_buffer_with_offset B) : Prop :=
  A.data w = (AudioBufferView.data w A.m_buffer).bind
      (fun p => p.add (A.size_channels * A.m_offset)) ∧
    A.data_const w = (AudioBufferView.data_const w A.m_buffer).bind
      (fun p => p.add (A.size_channels * A.m_offset)) ∧
    (A.data w).bind (fun p => p.subscript 0) = A.operator_call w 0 0 ∧
    (A.data_const w).bind (fun p => p.subscript 0) = A.operator_call_const w 0 0 ∧
    ∀ c f, c < A.size_channels → f < A.size_frames w →
      (A.data w).bind (fun p => p.subscript (f * A.size_channels + c))
          = A.operator_call w c f ∧
        (A.data_const w).bind (fun p => p.subscript (f * A.size_channels + c))
          = A.operator_call_const w c f

/-! ## `common/version.cpp`: version numbers

A `std::string` is the list of its characters; a `uint32` is a natural number below
`2 ^ 32`.  The formatting and parsing helpers of `mptStringFormat.h`,
`mptStringParse.h` and `mptString.h` and the macro of `versionNumber.h` are not among
the sources and are modelled from their described behaviour. -/

/-- The upper-case hexadecimal digit of `d < 16`. -/
def mpt.fmt.hexDigitChar (d : Nat) : Char :=
  if d < 10 then Char.ofNat ('0'.toNat + d) else Char.ofNat ('A'.toNat + (d - 10))

/-- The hexadecimal digits of `n`, most significant first, in front of `acc`. -/
def mpt.fmt.hexDigitsCore : Nat → Nat → List Char → List Char
  | 0, _, acc => acc
  | fuel + 1, n, acc =>
    if n / 16 = 0 then mpt.fmt.hexDigitChar (n % 16) :: acc
    else mpt.fmt.hexDigitsCore fuel (n / 16) (mpt.fmt.hexDigitChar (n % 16) :: acc)

/-- Modelled from the spec: `mpt::fmt::HEX` of `mptStringFormat.h`, which is not among the
sources; it prints its argument in upper-case hexadecimal without padding. -/
def mpt.fmt.HEX (n : Nat) : List Char := mpt.fmt.hexDigitsCore (n + 1) n []

/-- Modelled from the spec: `mpt::fmt::HEX0<width>` of `mptStringFormat.h`, which is not
among the sources; it prints its argument in upper-case hexadecimal, padded with zeros
on the left to `width` digits. -/
def mpt.fmt.HEX0 (width n : Nat) : List Char :=
  List.replicate (width - (mpt.fmt.HEX n).length) '0' ++ mpt.fmt.HEX n

/-- Modelled from the spec: `mpt::format` of `mptStringFormat.h`, which is not among the
sources; each `%N` of the pattern (`N` a digit from 1) is replaced by the `N`-th
argument. -/
def mpt.format : List Char → List (List Char) → List Char
  | [], _ => []
  | [c], _ => [c]
  | c :: d :: rest, args =>
    if c = '%' then args.getD (d.toNat - '1'.toNat) [] ++ mpt.format rest args
    else c :: mpt.format (d :: rest) args

/-- Modelled from the spec: `mpt::String::Split` of `mptString.h`, which is not among the
sources; it splits the text at every occurrence of the separator character. -/
def mpt.String.Split (sep : Char) : List Char → List (List Char)
  | [] => [[]]
  | c :: cs =>
    if c = sep then [] :: mpt.String.Split sep cs
    else
      match mpt.String.Split sep cs with
      | [] => [[c]]
      | h :: t => (c :: h) :: t

/-- The value of a hexadecimal digit, upper or lower case (`0`-`9` are the codes 48-57,
`A`-`F` 65-70 and `a`-`f` 97-102). -/
def mpt.String.Parse.hexDigitValue (c : Char) : Option Nat :=
  let n := c.toNat
  if n < 48 then none
  else if n < 58 then some (n - 48)
  else if n < 65 then none
  else if n < 71 then some (n - 55)
  else if n < 97 then none
  else if n < 103 then some (n - 87)
  else none

/-- Reading hexadecimal digits into an `unsigned int` accumulator until the text ends or
a character is not a hexadecimal digit. -/
def mpt.String.Parse.hexCore : List Char → Nat → Nat
  | [], acc => acc
  | c :: cs, acc =>
    match mpt.String.Parse.hexDigitValue c with
    | some d => mpt.String.Parse.hexCore cs ((acc * 16 + d) % 2 ^ 32)
    | none => acc

/-- Modelled from the spec: `mpt::String::Parse::Hex<unsigned int>` of `mptStringParse.h`,
which is not among the sources; it reads a hexadecimal number. -/
def mpt.String.Parse.Hex (s : List Char) : Nat := mpt.String.Parse.hexCore s 0

/-- The class `Version`: its raw `uint32` value; `mk` is the constructor
`Version(uint32)`. -/
structure Version where
  m_Version : Nat

/-- Modelled from the spec: the macro `MAKE_VERSION_NUMERIC(v0,v1,v2,v3)` of
`versionNumber.h`, which is not among the sources; its arguments are read as hexadecimal
bytes, so that `MAKE_VERSION_NUMERIC(1,18,02,00)` has raw value `0x01180200`. -/
def MAKE_VERSION_NUMERIC (v0 v1 v2 v3 : Nat) : Version :=
  Version.mk ((v0 <<< 24) ||| (v1 <<< 16) ||| (v2 <<< 8) ||| v3)

namespace Version

/-- The loop of `Version::Parse`, entered with the counter at `i` over the numbers not
yet visited:
`for(; i < numbers.size() && i < 4; ++i) result |= (Hex(numbers[i]) & 0xff) << ((3-i)*8);`.
The shifted byte is below `2 ^ 32`, so the `uint32` result cannot overflow. -/
def Parse_loop : List (List Char) → Nat → Nat → Nat
  | [], _, result => result
  | number :: rest, i, result =>
    if i < 4 then
      Parse_loop rest (i + 1)
        (result ||| ((mpt.String.Parse.Hex number &&& 0xff) <<< ((3 - i) * 8)))
    else result

/-- Function `Version::Parse(const std::string &)`. -/
def Parse (s : List Char) : Version :=
  Version.mk (Parse_loop (mpt.String.Split '.' s) 0 0)

/-- Member `Version::ToString()`. -/
def ToString (self : Version) : List Char :=
  if self.m_Version = 0 then "Unknown".toList
  else if self.m_Version &&& 0xFFFF = 0 then
    mpt.format "%1.%2".toList
      [mpt.fmt.HEX ((self.m_Version >>> 24) &&& 0xFF),
        mpt.fmt.HEX0 2 ((self.m_Version >>> 16) &&& 0xFF)]
  else
    mpt.format "%1.%2.%3.%4".toList
      [mpt.fmt.HEX ((self.m_Version >>> 24) &&& 0xFF),
        mpt.fmt.HEX0 2 ((self.m_Version >>> 16) &&& 0xFF),
        mpt.fmt.HEX0 2 ((self.m_Version >>> 8) &&& 0xFF),
        mpt.fmt.HEX0 2 (self.m_Version &&& 0xFF)]

/-- Member `Version::WithoutTestNumber()`: `return Version(m_Version & 0xFFFFFF00u);`. -/
def WithoutTestNumber (self : Version) : Version :=
  Version.mk (self.m_Version &&& 0xFFFFFF00)

/-- Member `Version::WithoutPatchOrTestNumbers()`:
`return Version(m_Version & 0xFFFF0000u);`. -/
def WithoutPatchOrTestNumbers (self : Version) : Version :=
  Version.mk (self.m_Version &&& 0xFFFF0000)

/-- Member `Version::IsTestVersion()`; versions are compared by their raw values. -/
def IsTestVersion (self : Version) : Bool :=
  (decide (self.m_Version > (MAKE_VERSION_NUMERIC 0x1 0x17 0x02 0x54).m_Version)
      && decide (self.m_Version < (MAKE_VERSION_NUMERIC 0x1 0x18 0x02 0x00).m_Version)
      && decide (self.m_Version ≠ (MAKE_VERSION_NUMERIC 0x1 0x18 0x00 0x00).m_Version))
    || (decide (self.m_Version > (MAKE_VERSION_NUMERIC 0x1 0x18 0x02 0x00).m_Version)
      && decide ((self.m_Version &&& 0xFFFFFF00) ≠ self.m_Version))

end Version

/-- The fields of `SourceInfo`. -/
structure SourceInfo where
  m_Url : String
  m_Revision : Int
  m_IsDirty : Bool
  m_HasMixedRevisions : Bool
  m_IsPackage : Bool
  m_Date : String

namespace SourceInfo

/-- Member `SourceInfo::GetStateString()`. -/
def GetStateString (self : SourceInfo) : String :=
  let retval0 : String := ""
  let retval1 := if self.m_IsDirty then retval0 ++ "+dirty" else retval0
  let retval2 := if self.m_HasMixedRevisions then retval1 ++ "+mixed" else retval1
  let retval3 := if retval2.isEmpty then retval2 ++ "clean" else retval2
  let retval4 := if self.m_IsPackage then retval3 ++ "-pkg" else retval3
  retval4

/-- The condition `!sourceInfo.GetStateString().empty()` under which
`Build::GetVersionString` appends the state string. -/
def GetVersionString_state_condition (sourceInfo : SourceInfo) : Bool :=
  !sourceInfo.GetStateString.isEmpty

end SourceInfo

/-! ## Arithmetic facts about `std::size_t` operations -/

theorem size_mul_of_lt {w a b : Nat} (h : a * b < 2 ^ w) : size_mul w a b = a * b :=
  Nat.mod_eq_of_lt h

theorem size_add_of_lt {w a b : Nat} (h : a + b < 2 ^ w) : size_add w a b = a + b :=
  Nat.mod_eq_of_lt h

/-- A valid (channel, frame) pair of a `C`-by-`F` buffer has row-major position below `C * F`. -/
theorem index_lt_of_valid {C F c f : Nat} (hc : c < C) (hf : f < F) : f * C + c < C * F := by
  have h1 : (f + 1) * C ≤ F * C := Nat.mul_le_mul_right C hf
  have h2 : (f + 1) * C = f * C + C := by ring
  have h3 : F * C = C * F := Nat.mul_comm F C
  omega

/-- The subscript `m_channels * frame + channel` of the interleaved layout does not wrap
for a valid pair of a buffer that fits the address space. -/
theorem interleaved_subscript_eq {w C F c f : Nat} (hc : c < C) (hf : f < F)
    (hfit : C * F < 2 ^ w) : size_add w (size_mul w C f) c = f * C + c := by
  have hlt : f * C + c < C * F := index_lt_of_valid hc hf
  have hcomm : C * f = f * C := Nat.mul_comm C f
  have hmul : size_mul w C f = f * C := by
    rw [size_mul_of_lt (by omega), hcomm]
  rw [hmul]
  exact size_add_of_lt (by omega)

/-- The subscript `(m_frames * channel) + frame` of the channel-contiguous layout does not
wrap for a valid pair of a buffer that fits the address space. -/
theorem contiguous_subscript_eq {w C F c f : Nat} (hc : c < C) (hf : f < F)
    (hfit : C * F < 2 ^ w) : size_add w (size_mul w F c) f = c * F + f := by
  have hlt : c * F + f < F * C := index_lt_of_valid hf hc
  have hcomm : F * c = c * F := Nat.mul_comm F c
  have hFC : F * C = C * F := Nat.mul_comm F C
  have hmul : size_mul w F c = c * F := by
    rw [size_mul_of_lt (by omega), hcomm]
  rw [hmul]
  exact size_add_of_lt (by omega)

/-! ## Addressing of the three concrete layouts -/

/-- For a valid pair, both overloads of `audio_buffer_interleaved::operator()` subscript
the buffer at `f * C + c`. -/
theorem interleaved_refers (w : Nat) (buffer : Ptr) (C F c f : Nat)
    (hc : c < C) (hf : f < F) (hfit : C * F < 2 ^ w) :
    (audio_buffer_interleaved.mk buffer C F).operator_call w c f
        = buffer.subscript (f * C + c) ∧
      (audio_buffer_interleaved.mk buffer C F).operator_call_const w c f
        = buffer.subscript (f * C + c) := by
  have h := interleaved_subscript_eq hc hf hfit
  constructor
  · show buffer.subscript (size_add w (size_mul w C f) c) = _
    rw [h]
  · show buffer.subscript (size_add w (size_mul w C f) c) = _
    rw [h]

/-- For a valid pair, both overloads of `audio_buffer_contiguous::operator()` subscript
the buffer at `c * F + f`. -/
theorem contiguous_refers (w : Nat) (buffer : Ptr) (C F c f : Nat)
    (hc : c < C) (hf : f < F) (hfit : C * F < 2 ^ w) :
    (audio_buffer_contiguous.mk buffer C F).operator_call w c f
        = buffer.subscript (c * F + f) ∧
      (audio_buffer_contiguous.mk buffer C F).operator_call_const w c f
        = buffer.subscript (c * F + f) := by
  have h := contiguous_subscript_eq hc hf hfit
  constructor
  · show buffer.subscript (size_add w (size_mul w F c) f) = _
    rw [h]
  · show buffer.subscript (size_add w (size_mul w F c) f) = _
    rw [h]

/-- Both overloads of `audio_buffer_planar::operator()` subscript plane `c` at `f`. -/
theorem planar_refers (buffers : List Ptr) (C F c f : Nat) (p : Ptr)
    (hp : buffers[c]? = some p) :
    (audio_buffer_planar.mk buffers C F).operator_call c f = p.subscript f ∧
      (audio_buffer_planar.mk buffers C F).operator_call_const c f = p.subscript f := by
  constructor
  · show (buffers[c]?).bind (fun q => q.subscript f) = _
    rw [hp]
    rfl
  · show (buffers[c]?).bind (fun q => q.subscript f) = _
    rw [hp]
    rfl

/-- C1: an `audio_buffer_interleaved` view built over a buffer of `C` channels and `F`
frames (the `C * F` samples fit the `w`-bit address space) refers, at every channel
`c < C` and frame `f < F`, to the storage element at index `f * C + c`, through the
non-const and through the const `operator()`. -/
theorem audio_buffer_interleaved_operator_call (w : Nat) (buffer : Ptr) (C F c f : Nat)
    (hc : c < C) (hf : f < F) (hfit : C * F < 2 ^ w) :
    (audio_buffer_interleaved.mk buffer C F).operator_call w c f
        = buffer.subscript (f * C + c) ∧
      (audio_buffer_interleaved.mk buffer C F).operator_call_const w c f
        = buffer.subscript (f * C + c) :=
  interleaved_refers w buffer C F c f hc hf hfit

/-- Witness for C1: two channels, four frames at address 1000 on a 64-bit platform;
channel 1 of frame 2 is the cell at address 1005. -/
theorem audio_buffer_interleaved_operator_call_witness :
    (1 < 2 ∧ 2 < 4 ∧ 2 * 4 < 2 ^ 64) ∧
      ((audio_buffer_interleaved.mk (Ptr.addr 1000) 2 4).operator_call 64 1 2
          = (Ptr.addr 1000).subscript (2 * 2 + 1) ∧
        (audio_buffer_interleaved.mk (Ptr.addr 1000) 2 4).operator_call_const 64 1 2
          = (Ptr.addr 1000).subscript (2 * 2 + 1)) ∧
      (Ptr.addr 1000).subscript (2 * 2 + 1) = some 1005 :=
  ⟨⟨by decide, by decide, by norm_num⟩,
    audio_buffer_interleaved_operator_call 64 (Ptr.addr 1000) 2 4 1 2
      (by decide) (by decide) (by norm_num),
    rfl⟩

/-- C2: an `audio_buffer_contiguous` view built over a buffer of `C` channels and `F`
frames (the `C * F` samples fit the `w`-bit address space) refers, at every channel
`c < C` and frame `f < F`, to the storage element at index `c * F + f`, through the
non-const and through the const `operator()`. -/
theorem audio_buffer_contiguous_operator_call (w : Nat) (buffer : Ptr) (C F c f : Nat)
    (hc : c < C) (hf : f < F) (hfit : C * F < 2 ^ w) :
    (audio_buffer_contiguous.mk buffer C F).operator_call w c f
        = buffer.subscript (c * F + f) ∧
      (audio_buffer_contiguous.mk buffer C F).operator_call_const w c f
        = buffer.subscript (c * F + f) :=
  contiguous_refers w buffer C F c f hc hf hfit

/-- Witness for C2: two channels, four frames at address 1000 on a 64-bit platform;
frame 2 of channel 1 is the cell at address 1006. -/
theorem audio_buffer_contiguous_operator_call_witness :
    (1 < 2 ∧ 2 < 4 ∧ 2 * 4 < 2 ^ 64) ∧
      ((audio_buffer_contiguous.mk (Ptr.addr 1000) 2 4).operator_call 64 1 2
          = (Ptr.addr 1000).subscript (1 * 4 + 2) ∧
        (audio_buffer_contiguous.mk (Ptr.addr 1000) 2 4).operator_call_const 64 1 2
          = (Ptr.addr 1000).subscript (1 * 4 + 2)) ∧
      (Ptr.addr 1000).subscript (1 * 4 + 2) = some 1006 :=
  ⟨⟨by decide, by decide, by norm_num⟩,
    audio_buffer_contiguous_operator_call 64 (Ptr.addr 1000) 2 4 1 2
      (by decide) (by decide) (by norm_num),
    rfl⟩

/-- C3: an `audio_buffer_planar` view built over an array of per-channel buffers refers,
at every valid channel `c` (whose buffer is `p`) and frame `f`, to element `f` of that
buffer, through both overloads of `operator()`; and `data()` (both overloads) is the
null marker whatever the channel count, frame count and buffer array are, adjacent
channel buffers included. -/
theorem audio_buffer_planar_operator_call_and_data (buffers : List Ptr) (C F : Nat) :
    (∀ (c f : Nat) (p : Ptr), c < C → f < F → buffers[c]? = some p →
        (audio_buffer_planar.mk buffers C F).operator_call c f = p.subscript f ∧
        (audio_buffer_planar.mk buffers C F).operator_call_const c f = p.subscript f) ∧
      (audio_buffer_planar.mk buffers C F).data = some nullptr ∧
      (audio_buffer_planar.mk buffers C F).data_const = some nullptr :=
  ⟨fun c f p _ _ hp => planar_refers buffers C F c f p hp, rfl, rfl⟩

/-- Witness for C3: two planes of four frames that are adjacent in memory (addresses
100 and 104); frame 2 of channel 1 is the cell at address 106 and `data()` is null. -/
theorem audio_buffer_planar_operator_call_and_data_witness :
    (1 < 2 ∧ 2 < 4 ∧ [Ptr.addr 100, Ptr.addr 104][1]? = some (Ptr.addr 104)) ∧
      (audio_buffer_planar.mk [Ptr.addr 100, Ptr.addr 104] 2 4).operator_call 1 2 = some 106 ∧
      (audio_buffer_planar.mk [Ptr.addr 100, Ptr.addr 104] 2 4).operator_call_const 1 2
        = some 106 ∧
      (audio_buffer_planar.mk [Ptr.addr 100, Ptr.addr 104] 2 4).data = some nullptr :=
  ⟨⟨by decide, by decide, rfl⟩,
    ((audio_buffer_planar_operator_call_and_data [Ptr.addr 100, Ptr.addr 104] 2 4).1
      1 2 (Ptr.addr 104) (by decide) (by decide) rfl).1,
    ((audio_buffer_planar_operator_call_and_data [Ptr.addr 100, Ptr.addr 104] 2 4).1
      1 2 (Ptr.addr 104) (by decide) (by decide) rfl).2,
    (audio_buffer_planar_operator_call_and_data [Ptr.addr 100, Ptr.addr 104] 2 4).2.1⟩

/-! ## Sizes -/

/-- C4: for every view type (the three concrete layouts, the runtime-polymorphic
`audio_buffer` in any state its four constructors produce, and `audio_buffer_with_offset`
over any view type) `size_samples()` is `size_channels() * size_frames()` in
`std::size_t` arithmetic, that is modulo `2 ^ w`. -/
theorem size_samples_eq_size_channels_mul_size_frames (w : Nat) :
    (∀ v : audio_buffer_planar,
        v.size_samples w = (v.size_channels * v.size_frames) % 2 ^ w) ∧
      (∀ v : audio_buffer_contiguous,
        v.size_samples w = (v.size_channels * v.size_frames) % 2 ^ w) ∧
      (∀ v : audio_buffer_interleaved,
        v.size_samples w = (v.size_channels * v.size_frames) % 2 ^ w) ∧
      (∀ v : audio_buffer,
        v.size_samples w = (v.size_channels * v.size_frames) % 2 ^ w) ∧
      (∀ (B : Type) [AudioBufferView B] (v : audio_buffer_with_offset B),
        v.size_samples w = (v.size_channels * v.size_frames w) % 2 ^ w ∧
        AudioBufferView.size_samples w v
          = (AudioBufferView.size_channels v * AudioBufferView.size_frames w v) % 2 ^ w) :=
  ⟨fun _ => rfl, fun _ => rfl, fun _ => rfl, fun _ => rfl, fun _ _ _ => ⟨rfl, rfl⟩⟩

/-! ## Layout round trip -/

/-- Row-major position `q * n + r` with `r < n` decomposes back into `r` and `q`. -/
theorem row_major_mod_div {n q r : Nat} (hr : r < n) :
    (q * n + r) % n = r ∧ (q * n + r) / n = q := by
  have hn : 0 < n := by omega
  constructor
  · rw [Nat.add_comm, Nat.add_mul_mod_self_right]
    exact Nat.mod_eq_of_lt hr
  · rw [Nat.add_comm, Nat.add_mul_div_right _ _ hn, Nat.div_eq_of_lt hr]
    omega

/-- Row-major positions are injective on valid pairs. -/
theorem row_major_inj {n q r q' r' : Nat} (hr : r < n) (hr' : r' < n)
    (h : q * n + r = q' * n + r') : r = r' ∧ q = q' := by
  have h1 := row_major_mod_div (q := q) hr
  have h2 := row_major_mod_div (q := q') hr'
  rw [h] at h1
  exact ⟨h1.1.symm.trans h2.1, h1.2.symm.trans h2.2⟩

/-- Every position below `n * m` is the row-major position of a valid pair. -/
theorem row_major_surj {n m i : Nat} (hi : i < n * m) :
    i % n < n ∧ i / n < m ∧ i / n * n + i % n = i := by
  have hn : 0 < n := by
    rcases Nat.eq_zero_or_pos n with h | h
    · subst h
      simp at hi
    · exact h
  refine ⟨Nat.mod_lt _ hn, ?_, ?_⟩
  · exact (Nat.div_lt_iff_lt_mul hn).2 (by rw [Nat.mul_comm]; exact hi)
  · rw [Nat.mul_comm]
    exact Nat.div_add_mod i n

theorem threeLayoutMemory_interleaved {α : Type} (C F : Nat) (s : Nat → Nat → α) :
    InterleavedStorageHolds (threeLayoutMemory C F s) (Ptr.addr 0) C F s := by
  intro c hc f hf
  have hlt : f * C + c < C * F := index_lt_of_valid hc hf
  have hmd := row_major_mod_div (q := f) hc
  show threeLayoutMemory C F s (0 + (f * C + c)) = _
  rw [Nat.zero_add]
  unfold threeLayoutMemory
  rw [if_pos hlt, hmd.1, hmd.2]

theorem threeLayoutMemory_contiguous {α : Type} (C F : Nat) (s : Nat → Nat → α) :
    ContiguousStorageHolds (threeLayoutMemory C F s) (Ptr.addr (C * F)) C F s := by
  intro c hc f hf
  have hlt : c * F + f < F * C := index_lt_of_valid hf hc
  have hFC : F * C = C * F := Nat.mul_comm F C
  have hmd := row_major_mod_div (q := c) hf
  show threeLayoutMemory C F s (C * F + (c * F + f)) = _
  unfold threeLayoutMemory
  rw [if_neg (by omega), if_pos (by omega), Nat.add_sub_cancel_left, hmd.1, hmd.2]

theorem threeLayoutMemory_planar {α : Type} (C F : Nat) (s : Nat → Nat → α) :
    PlanarStorageHolds (threeLayoutMemory C F s) (threeLayoutPlanes C F) C F s := by
  intro c hc f hf
  have hlt : c * F + f < F * C := index_lt_of_valid hf hc
  have hFC : F * C = C * F := Nat.mul_comm F C
  have hmd := row_major_mod_div (q := c) hf
  refine ⟨Ptr.addr (2 * (C * F) + c * F), ?_, ?_⟩
  · simp [threeLayoutPlanes, List.getElem?_map, List.getElem?_range hc]
  · show threeLayoutMemory C F s (2 * (C * F) + c * F + f) = _
    unfold threeLayoutMemory
    rw [if_neg (by omega), if_neg (by omega), if_pos (by omega)]
    have ha : 2 * (C * F) + c * F + f - 2 * (C * F) = c * F + f := by omega
    rw [ha, hmd.1, hmd.2]

/-- The interleaved view over the buffer at address `b` maps the valid pairs one-to-one
onto the `C * F` cells of the buffer. -/
theorem interleaved_bijOn (w C F b : Nat) (hfit : C * F < 2 ^ w) :
    Set.BijOn
      (fun p : Nat × Nat => (audio_buffer_interleaved.mk (Ptr.addr b) C F).operator_call w p.1 p.2)
      {p | p.1 < C ∧ p.2 < F}
      (Set.image (fun i => some (b + i)) (Set.Iio (C * F))) := by
  have key : ∀ c f, c < C → f < F →
      (audio_buffer_interleaved.mk (Ptr.addr b) C F).operator_call w c f
        = some (b + (f * C + c)) := fun c f hc hf =>
    (interleaved_refers w (Ptr.addr b) C F c f hc hf hfit).1
  refine ⟨?_, ?_, ?_⟩
  · rintro ⟨c, f⟩ ⟨hc, hf⟩
    exact ⟨f * C + c, index_lt_of_valid hc hf, (key c f hc hf).symm⟩
  · rintro ⟨c, f⟩ ⟨hc, hf⟩ ⟨c', f'⟩ ⟨hc', hf'⟩ h
    simp only [] at h hc hf hc' hf'
    rw [key c f hc hf, key c' f' hc' hf'] at h
    have h2 : f * C + c = f' * C + c' := by
      have := Option.some.inj h
      omega
    obtain ⟨e1, e2⟩ := row_major_inj hc hc' h2
    rw [e1, e2]
  · rintro _ ⟨i, hi, rfl⟩
    obtain ⟨h1, h2, h3⟩ := row_major_surj hi
    refine ⟨(i % C, i / C), ⟨h1, h2⟩, ?_⟩
    show (audio_buffer_interleaved.mk (Ptr.addr b) C F).operator_call w (i % C) (i / C) = _
    rw [key _ _ h1 h2, h3]

/-- The channel-contiguous view over the buffer at address `b` maps the valid pairs
one-to-one onto the `C * F` cells of the buffer. -/
theorem contiguous_bijOn (w C F b : Nat) (hfit : C * F < 2 ^ w) :
    Set.BijOn
      (fun p : Nat × Nat => (audio_buffer_contiguous.mk (Ptr.addr b) C F).operator_call w p.1 p.2)
      {p | p.1 < C ∧ p.2 < F}
      (Set.image (fun i => some (b + i)) (Set.Iio (C * F))) := by
  have key : ∀ c f, c < C → f < F →
      (audio_buffer_contiguous.mk (Ptr.addr b) C F).operator_call w c f
        = some (b + (c * F + f)) := fun c f hc hf =>
    (contiguous_refers w (Ptr.addr b) C F c f hc hf hfit).1
  have hFC : F * C = C * F := Nat.mul_comm F C
  refine ⟨?_, ?_, ?_⟩
  · rintro ⟨c, f⟩ ⟨hc, hf⟩
    have hlt : c * F + f < F * C := index_lt_of_valid hf hc
    exact ⟨c * F + f, hFC ▸ hlt, (key c f hc hf).symm⟩
  · rintro ⟨c, f⟩ ⟨hc, hf⟩ ⟨c', f'⟩ ⟨hc', hf'⟩ h
    simp only [] at h hc hf hc' hf'
    rw [key c f hc hf, key c' f' hc' hf'] at h
    have h2 : c * F + f = c' * F + f' := by
      have := Option.some.inj h
      omega
    obtain ⟨e1, e2⟩ := row_major_inj hf hf' h2
    rw [e1, e2]
  · rintro _ ⟨i, hi, rfl⟩
    have hi2 : i < F * C := hFC.symm ▸ (hi : i < C * F)
    obtain ⟨h1, h2, h3⟩ := row_major_surj hi2
    refine ⟨(i / F, i % F), ⟨h2, h1⟩, ?_⟩
    show (audio_buffer_contiguous.mk (Ptr.addr b) C F).operator_call w (i / F) (i % F) = _
    rw [key _ _ h2 h1, h3]

/-- C5 (layout round trip): for `C` channels, `F` frames (the `C * F` samples fit the
address space) and a logical content `s`, whenever an interleaved storage holds
`s c f` at index `f * C + c`, a channel-contiguous storage holds it at index
`c * F + f` and a planar storage holds it at position `f` of plane `c`, the views
`audio_buffer_interleaved`, `audio_buffer_contiguous` and `audio_buffer_planar` built
over them read `s c f` at every valid `(c, f)` (both overloads of `operator()`); such
storages exist for every `s`; and the interleaved and the channel-contiguous view map
the valid pairs one-to-one onto the `C * F` cells of their buffer. -/
theorem layout_round_trip {α : Type} (w C F : Nat) (hfit : C * F < 2 ^ w)
    (s : Nat → Nat → α) :
    (∀ (mem : Memory α) (bufI bufC : Ptr) (planes : List Ptr),
        InterleavedStorageHolds mem bufI C F s →
        ContiguousStorageHolds mem bufC C F s →
        PlanarStorageHolds mem planes C F s →
        ∀ c f, c < C → f < F →
          load mem ((audio_buffer_interleaved.mk bufI C F).operator_call w c f)
              = some (s c f) ∧
            load mem ((audio_buffer_interleaved.mk bufI C F).operator_call_const w c f)
              = some (s c f) ∧
            load mem ((audio_buffer_contiguous.mk bufC C F).operator_call w c f)
              = some (s c f) ∧
            load mem ((audio_buffer_contiguous.mk bufC C F).operator_call_const w c f)
              = some (s c f) ∧
            load mem ((audio_buffer_planar.mk planes C F).operator_call c f)
              = some (s c f) ∧
            load mem ((audio_buffer_planar.mk planes C F).operator_call_const c f)
              = some (s c f)) ∧
      (∃ (mem : Memory α) (bufI bufC : Ptr) (planes : List Ptr),
        planes.length = C ∧
          InterleavedStorageHolds mem bufI C F s ∧
          ContiguousStorageHolds mem bufC C F s ∧
          PlanarStorageHolds mem planes C F s) ∧
      (∀ b : Nat, Set.BijOn
        (fun p : Nat × Nat =>
          (audio_buffer_interleaved.mk (Ptr.addr b) C F).operator_call w p.1 p.2)
        {p | p.1 < C ∧ p.2 < F}
        (Set.image (fun i => some (b + i)) (Set.Iio (C * F)))) ∧
      (∀ b : Nat, Set.BijOn
        (fun p : Nat × Nat =>
          (audio_buffer_contiguous.mk (Ptr.addr b) C F).operator_call w p.1 p.2)
        {p | p.1 < C ∧ p.2 < F}
        (Set.image (fun i => some (b + i)) (Set.Iio (C * F)))) := by
  refine ⟨?_, ?_, fun b => interleaved_bijOn w C F b hfit,
    fun b => contiguous_bijOn w C F b hfit⟩
  · intro mem bufI bufC planes hI hC hP c f hc hf
    have eI := interleaved_refers w bufI C F c f hc hf hfit
    have eC := contiguous_refers w bufC C F c f hc hf hfit
    obtain ⟨p, hp, hload⟩ := hP c hc f hf
    have eP := planar_refers planes C F c f p hp
    rw [eI.1, eI.2, eC.1, eC.2, eP.1, eP.2]
    exact ⟨hI c hc f hf, hI c hc f hf, hC c hc f hf, hC c hc f hf, hload, hload⟩
  · exact ⟨threeLayoutMemory C F s, Ptr.addr 0, Ptr.addr (C * F), threeLayoutPlanes C F,
      by simp [threeLayoutPlanes],
      threeLayoutMemory_interleaved C F s, threeLayoutMemory_contiguous C F s,
      threeLayoutMemory_planar C F s⟩

/-- Witness for C5: two channels (L, R), four frames on a 64-bit platform, content
`s c f = 10 * c + f`; the three views over the three regions of `threeLayoutMemory`
all read `12` at channel 1, frame 2. -/
theorem layout_round_trip_witness :
    2 * 4 < 2 ^ 64 ∧
      load (threeLayoutMemory 2 4 (fun c f => 10 * c + f))
          ((audio_buffer_interleaved.mk (Ptr.addr 0) 2 4).operator_call 64 1 2) = some 12 ∧
      load (threeLayoutMemory 2 4 (fun c f => 10 * c + f))
          ((audio_buffer_contiguous.mk (Ptr.addr (2 * 4)) 2 4).operator_call 64 1 2)
        = some 12 ∧
      load (threeLayoutMemory 2 4 (fun c f => 10 * c + f))
          ((audio_buffer_planar.mk (threeLayoutPlanes 2 4) 2 4).operator_call 1 2)
        = some 12 := by
  have h := (layout_round_trip 64 2 4 (by norm_num) (fun c f => 10 * c + f)).1
    (threeLayoutMemory 2 4 (fun c f => 10 * c + f)) (Ptr.addr 0) (Ptr.addr (2 * 4))
    (threeLayoutPlanes 2 4)
    (threeLayoutMemory_interleaved 2 4 _) (threeLayoutMemory_contiguous 2 4 _)
    (threeLayoutMemory_planar 2 4 _) 1 2 (by decide) (by decide)
  exact ⟨by norm_num, h.1, h.2.2.1, h.2.2.2.2.1⟩

/-! ## The runtime-polymorphic view over a single buffer -/

/-- In `std::size_t` arithmetic the subscript of the frames-contiguous constructor is
the subscript of `audio_buffer_interleaved`, wrap-around included. -/
theorem frames_contiguous_subscript_eq_interleaved (w C c f : Nat) :
    size_add w (size_mul w 1 c) (size_mul w C f) = size_add w (size_mul w C f) c := by
  unfold size_add size_mul
  rw [Nat.one_mul, Nat.mod_add_mod, Nat.add_mod_mod, Nat.add_comm, Nat.mod_add_mod]

/-- In `std::size_t` arithmetic the subscript of the channels-contiguous constructor is
the subscript of `audio_buffer_contiguous`, wrap-around included, for a frame index that
is a `std::size_t` value. -/
theorem channels_contiguous_subscript_eq_contiguous (w F c f : Nat) (hf : f < 2 ^ w) :
    size_add w (size_mul w F c) (size_mul w 1 f) = size_add w (size_mul w F c) f := by
  unfold size_add size_mul
  rw [Nat.one_mul, Nat.mod_eq_of_lt hf]

/-- C6: the runtime-polymorphic `audio_buffer` built with the frames-contiguous tag
refers, for every `C`, `F`, base buffer and valid `(c, f)`, to exactly the element
`audio_buffer_interleaved` over the same buffer refers to (both overloads, wrap-around
of the `std::size_t` subscript included); and over a buffer of `C` channels and `F`
frames (its `C * F` samples fit the address space) that is the storage element at
index `f * C + c`. -/
theorem audio_buffer_frames_are_contiguous_operator_call (w : Nat) (buffer : Ptr)
    (C F c f : Nat) (hc : c < C) (hf : f < F) :
    ((audio_buffer.mk_frames_are_contiguous buffer C F).operator_call w c f
          = (audio_buffer_interleaved.mk buffer C F).operator_call w c f ∧
        (audio_buffer.mk_frames_are_contiguous buffer C F).operator_call_const w c f
          = (audio_buffer_interleaved.mk buffer C F).operator_call_const w c f) ∧
      (C * F < 2 ^ w →
        (audio_buffer.mk_frames_are_contiguous buffer C F).operator_call w c f
          = buffer.subscript (f * C + c) ∧
        (audio_buffer.mk_frames_are_contiguous buffer C F).operator_call_const w c f
          = buffer.subscript (f * C + c)) := by
  have hsub := frames_contiguous_subscript_eq_interleaved w C c f
  have e1 : (audio_buffer.mk_frames_are_contiguous buffer C F).operator_call w c f
      = (audio_buffer_interleaved.mk buffer C F).operator_call w c f := by
    show buffer.subscript (size_add w (size_mul w 1 c) (size_mul w C f))
      = buffer.subscript (size_add w (size_mul w C f) c)
    rw [hsub]
  have e2 : (audio_buffer.mk_frames_are_contiguous buffer C F).operator_call_const w c f
      = (audio_buffer_interleaved.mk buffer C F).operator_call_const w c f := by
    show buffer.subscript (size_add w (size_mul w 1 c) (size_mul w C f))
      = buffer.subscript (size_add w (size_mul w C f) c)
    rw [hsub]
  refine ⟨⟨e1, e2⟩, fun hfit => ?_⟩
  have eI := interleaved_refers w buffer C F c f hc hf hfit
  exact ⟨e1.trans eI.1, e2.trans eI.2⟩

/-- Witness for C6: two channels, four frames, buffer `[L0,R0,L1,R1,L2,R2,L3,R3]` at
address 1000 on a 64-bit platform; channel 1 of frame 2 reads `R2`. -/
theorem audio_buffer_frames_are_contiguous_operator_call_witness :
    (1 < 2 ∧ 2 < 4 ∧ 2 * 4 < 2 ^ 64) ∧
      (audio_buffer.mk_frames_are_contiguous (Ptr.addr 1000) 2 4).operator_call 64 1 2
        = (Ptr.addr 1000).subscript (2 * 2 + 1) ∧
      load (Memory.ofList 1000 ["L0", "R0", "L1", "R1", "L2", "R2", "L3", "R3"])
          ((Ptr.addr 1000).subscript (2 * 2 + 1)) = some "R2" :=
  ⟨⟨by decide, by decide, by norm_num⟩,
    ((audio_buffer_frames_are_contiguous_operator_call 64 (Ptr.addr 1000) 2 4 1 2
      (by decide) (by decide)).2 (by norm_num)).1,
    rfl⟩

/-- C7: the runtime-polymorphic `audio_buffer` built with the channels-contiguous tag
refers, for every `C`, base buffer and valid `(c, f)` (the frame count `F` being a
`std::size_t` value), to exactly the element `audio_buffer_contiguous` over the same
buffer refers to (both overloads, wrap-around of the `std::size_t` subscript included);
and over a buffer of `C` channels and `F` frames (its `C * F` samples fit the address
space) that is the storage element at index `c * F + f` of the single base buffer. -/
theorem audio_buffer_channels_are_contiguous_operator_call (w : Nat) (buffer : Ptr)
    (C F c f : Nat) (hc : c < C) (hf : f < F) (hF : F < 2 ^ w) :
    ((audio_buffer.mk_channels_are_contiguous buffer C F).operator_call w c f
          = (audio_buffer_contiguous.mk buffer C F).operator_call w c f ∧
        (audio_buffer.mk_channels_are_contiguous buffer C F).operator_call_const w c f
          = (audio_buffer_contiguous.mk buffer C F).operator_call_const w c f) ∧
      (C * F < 2 ^ w →
        (audio_buffer.mk_channels_are_contiguous buffer C F).operator_call w c f
          = buffer.subscript (c * F + f) ∧
        (audio_buffer.mk_channels_are_contiguous buffer C F).operator_call_const w c f
          = buffer.subscript (c * F + f)) := by
  have hsub := channels_contiguous_subscript_eq_contiguous w F c f (by omega)
  have hF0 : F ≠ 0 := by omega
  have hcont : (audio_buffer.mk_channels_are_contiguous buffer C F).is_contiguous = true := by
    simp [audio_buffer.mk_channels_are_contiguous, audio_buffer.is_contiguous, hF0]
  have e1 : (audio_buffer.mk_channels_are_contiguous buffer C F).operator_call w c f
      = (audio_buffer_contiguous.mk buffer C F).operator_call w c f := by
    unfold audio_buffer.operator_call
    rw [if_pos hcont]
    show buffer.subscript (size_add w (size_mul w F c) (size_mul w 1 f))
      = buffer.subscript (size_add w (size_mul w F c) f)
    rw [hsub]
  have e2 : (audio_buffer.mk_channels_are_contiguous buffer C F).operator_call_const w c f
      = (audio_buffer_contiguous.mk buffer C F).operator_call_const w c f := by
    unfold audio_buffer.operator_call_const
    rw [if_pos hcont]
    show buffer.subscript (size_add w (size_mul w F c) (size_mul w 1 f))
      = buffer.subscript (size_add w (size_mul w F c) f)
    rw [hsub]
  refine ⟨⟨e1, e2⟩, fun hfit => ?_⟩
  have eC := contiguous_refers w buffer C F c f hc hf hfit
  exact ⟨e1.trans eC.1, e2.trans eC.2⟩

/-- Witness for C7: two channels, four frames, buffer `[L0,L1,L2,L3,R0,R1,R2,R3]` at
address 1000 on a 64-bit platform; frame 2 of channel 1 reads `R2`. -/
theorem audio_buffer_channels_are_contiguous_operator_call_witness :
    (1 < 2 ∧ 2 < 4 ∧ 4 < 2 ^ 64 ∧ 2 * 4 < 2 ^ 64) ∧
      (audio_buffer.mk_channels_are_contiguous (Ptr.addr 1000) 2 4).operator_call 64 1 2
        = (Ptr.addr 1000).subscript (1 * 4 + 2) ∧
      load (Memory.ofList 1000 ["L0", "L1", "L2", "L3", "R0", "R1", "R2", "R3"])
          ((Ptr.addr 1000).subscript (1 * 4 + 2)) = some "R2" :=
  ⟨⟨by decide, by decide, by norm_num, by norm_num⟩,
    ((audio_buffer_channels_are_contiguous_operator_call 64 (Ptr.addr 1000) 2 4 1 2
      (by decide) (by decide) (by norm_num)).2 (by norm_num)).1,
    rfl⟩

/-! ## The runtime-polymorphic view over planes -/

/-- With a zero channel stride over a plane array, `operator()` subscripts plane
`channel` at `frame * m_frame_stride` computed in `std::size_t`. -/
theorem audio_buffer_planes_operator_call (w : Nat) (planes : List Ptr)
    (stride C F c f : Nat) (p : Ptr) (hp : planes[c]? = some p) :
    (audio_buffer.mk (audio_buffer_union.planes planes) stride 0 C F).operator_call w c f
        = p.subscript (size_mul w f stride) ∧
      (audio_buffer.mk (audio_buffer_union.planes planes) stride 0 C F).operator_call_const
          w c f = p.subscript (size_mul w f stride) := by
  constructor
  · show (planes[c]?).bind (fun q => q.subscript (size_mul w f stride)) = _
    rw [hp]
    rfl
  · show (planes[c]?).bind (fun q => q.subscript (size_mul w f stride)) = _
    rw [hp]
    rfl

/-- C8: for the runtime-polymorphic `audio_buffer` built with a planar tag over a plane
array whose plane `c` is `p`, `operator()(c, f)` (both overloads) refers to element
`f * frame_stride` of plane `c` for every frame `f` below the frame count: the supplied
stride for the planar-and-strided tag (that position being a representable
`std::size_t`), and stride 1 for the plain planar tag, where it is exactly what
`audio_buffer_planar` over the same plane array refers to. -/
theorem audio_buffer_planar_tags_operator_call (w : Nat) (planes : List Ptr)
    (C F frame_stride c f : Nat) (p : Ptr) (hf : f < F)
    (hp : planes[c]? = some p) (hF : F < 2 ^ w) :
    (f * frame_stride < 2 ^ w →
        (audio_buffer.mk_channels_are_planar_and_strided planes C F frame_stride).operator_call
            w c f = p.subscript (f * frame_stride) ∧
          (audio_buffer.mk_channels_are_planar_and_strided planes C F
            frame_stride).operator_call_const w c f = p.subscript (f * frame_stride)) ∧
      (audio_buffer.mk_channels_are_planar planes C F).operator_call w c f
        = p.subscript (f * 1) ∧
      (audio_buffer.mk_channels_are_planar planes C F).operator_call_const w c f
        = p.subscript (f * 1) ∧
      (audio_buffer.mk_channels_are_planar planes C F).operator_call w c f
        = (audio_buffer_planar.mk planes C F).operator_call c f ∧
      (audio_buffer.mk_channels_are_planar planes C F).operator_call_const w c f
        = (audio_buffer_planar.mk planes C F).operator_call_const c f := by
  have hs := audio_buffer_planes_operator_call w planes frame_stride C F c f p hp
  have h1 := audio_buffer_planes_operator_call w planes 1 C F c f p hp
  have hone : size_mul w f 1 = f * 1 := size_mul_of_lt (by omega)
  have hP := planar_refers planes C F c f p hp
  have e1 : (audio_buffer.mk_channels_are_planar planes C F).operator_call w c f
      = p.subscript (f * 1) := by
    rw [← hone]
    exact h1.1
  have e2 : (audio_buffer.mk_channels_are_planar planes C F).operator_call_const w c f
      = p.subscript (f * 1) := by
    rw [← hone]
    exact h1.2
  refine ⟨?_, e1, e2, ?_, ?_⟩
  · intro hpos
    have hmul : size_mul w f frame_stride = f * frame_stride := size_mul_of_lt hpos
    rw [← hmul]
    exact hs
  · rw [e1, hP.1, Nat.mul_one]
  · rw [e2, hP.2, Nat.mul_one]

/-- Witness for C8: planes at addresses 100 and 200, two channels, four frames on a
64-bit platform; at channel 1, frame 2 the view with stride 2 refers to cell 204 and
the plain planar view to cell 202. -/
theorem audio_buffer_planar_tags_operator_call_witness :
    (2 < 4 ∧ [Ptr.addr 100, Ptr.addr 200][1]? = some (Ptr.addr 200) ∧
        4 < 2 ^ 64 ∧ 2 * 2 < 2 ^ 64) ∧
      (audio_buffer.mk_channels_are_planar_and_strided [Ptr.addr 100, Ptr.addr 200] 2 4
          2).operator_call 64 1 2 = some 204 ∧
      (audio_buffer.mk_channels_are_planar [Ptr.addr 100, Ptr.addr 200] 2 4).operator_call
          64 1 2 = some 202 :=
  ⟨⟨by decide, rfl, by norm_num, by norm_num⟩,
    ((audio_buffer_planar_tags_operator_call 64 [Ptr.addr 100, Ptr.addr 200] 2 4 2 1 2
      (Ptr.addr 200) (by decide) rfl (by norm_num)).1 (by norm_num)).1,
    (audio_buffer_planar_tags_operator_call 64 [Ptr.addr 100, Ptr.addr 200] 2 4 2 1 2
      (Ptr.addr 200) (by decide) rfl (by norm_num)).2.1⟩

/-! ## Contiguity of the runtime-polymorphic view -/

/-- The parts of the contiguity contract the constructors do meet: the frames-contiguous
tag always gives a contiguous view whose `data()` is the base pointer, both planar tags
give a non-contiguous view whose `data()` is null, and the channels-contiguous tag gives
a contiguous view with `data()` the base pointer whenever the frame count is not zero.
(`is_contiguous()` is `m_channel_stride != 0`.) -/
theorem audio_buffer_is_contiguous_and_data (buffer : Ptr) (planes : List Ptr)
    (C F frame_stride : Nat) :
    ((audio_buffer.mk_frames_are_contiguous buffer C F).is_contiguous = true ∧
        (audio_buffer.mk_frames_are_contiguous buffer C F).data = some buffer ∧
        (audio_buffer.mk_frames_are_contiguous buffer C F).data_const = some buffer) ∧
      ((audio_buffer.mk_channels_are_planar planes C F).is_contiguous = false ∧
        (audio_buffer.mk_channels_are_planar planes C F).data = some nullptr ∧
        (audio_buffer.mk_channels_are_planar planes C F).data_const = some nullptr) ∧
      ((audio_buffer.mk_channels_are_planar_and_strided planes C F frame_stride).is_contiguous
          = false ∧
        (audio_buffer.mk_channels_are_planar_and_strided planes C F frame_stride).data
          = some nullptr ∧
        (audio_buffer.mk_channels_are_planar_and_strided planes C F frame_stride).data_const
          = some nullptr) ∧
      (F ≠ 0 →
        (audio_buffer.mk_channels_are_contiguous buffer C F).is_contiguous = true ∧
        (audio_buffer.mk_channels_are_contiguous buffer C F).data = some buffer ∧
        (audio_buffer.mk_channels_are_contiguous buffer C F).data_const = some buffer) := by
  refine ⟨⟨rfl, rfl, rfl⟩, ⟨rfl, rfl, rfl⟩, ⟨rfl, rfl, rfl⟩, ?_⟩
  intro hF
  have hcont : (audio_buffer.mk_channels_are_contiguous buffer C F).is_contiguous = true := by
    simp [audio_buffer.mk_channels_are_contiguous, audio_buffer.is_contiguous, hF]
  refine ⟨hcont, ?_, ?_⟩
  · unfold audio_buffer.data
    rw [if_pos hcont]
    rfl
  · unfold audio_buffer.data_const
    rw [if_pos hcont]
    rfl

/-- C10 (counterexample): with two channels and a single frame the view built with the
frames-contiguous tag reports `channels_are_contiguous()` true, so it does not report
the pair (frames contiguous, channels not contiguous). -/
theorem audio_buffer_frames_are_contiguous_flags_counterexample :
    ¬ ((audio_buffer.mk_frames_are_contiguous (Ptr.addr 1000) 2 1).frames_are_contiguous
          = true ∧
        (audio_buffer.mk_frames_are_contiguous (Ptr.addr 1000) 2 1).channels_are_contiguous
          = false) := by
  decide

/-- C10 (amended): for every channel count `C` and every frame count `F` other than 1
the view built with the frames-contiguous tag reports `frames_are_contiguous()` true
and `channels_are_contiguous()` false, the flags `audio_buffer_interleaved` reports. -/
theorem audio_buffer_frames_are_contiguous_flags (buffer : Ptr) (C F : Nat) (hF : F ≠ 1) :
    (audio_buffer.mk_frames_are_contiguous buffer C F).frames_are_contiguous = true ∧
      (audio_buffer.mk_frames_are_contiguous buffer C F).channels_are_contiguous = false ∧
      (audio_buffer.mk_frames_are_contiguous buffer C F).frames_are_contiguous
        = (audio_buffer_interleaved.mk buffer C F).frames_are_contiguous ∧
      (audio_buffer.mk_frames_are_contiguous buffer C F).channels_are_contiguous
        = (audio_buffer_interleaved.mk buffer C F).channels_are_contiguous := by
  have h1 : (audio_buffer.mk_frames_are_contiguous buffer C F).frames_are_contiguous
      = true := by
    simp [audio_buffer.mk_frames_are_contiguous, audio_buffer.frames_are_contiguous]
  have h2 : (audio_buffer.mk_frames_are_contiguous buffer C F).channels_are_contiguous
      = false := by
    simp [audio_buffer.mk_frames_are_contiguous, audio_buffer.channels_are_contiguous]
    omega
  exact ⟨h1, h2, h1, h2⟩

/-- Witness for C10 (amended): two channels, four frames. -/
theorem audio_buffer_frames_are_contiguous_flags_witness :
    4 ≠ 1 ∧
      (audio_buffer.mk_frames_are_contiguous (Ptr.addr 1000) 2 4).frames_are_contiguous
        = true ∧
      (audio_buffer.mk_frames_are_contiguous (Ptr.addr 1000) 2 4).channels_are_contiguous
        = false :=
  ⟨by decide,
    (audio_buffer_frames_are_contiguous_flags (Ptr.addr 1000) 2 4 (by decide)).1,
    (audio_buffer_frames_are_contiguous_flags (Ptr.addr 1000) 2 4 (by decide)).2.1⟩

/-- C11 (counterexample): with a single channel and four frames the view built with the
channels-contiguous tag reports `frames_are_contiguous()` true, so it does not report
the pair (channels contiguous, frames not contiguous). -/
theorem audio_buffer_channels_are_contiguous_flags_counterexample :
    ¬ ((audio_buffer.mk_channels_are_contiguous (Ptr.addr 1000) 1 4).channels_are_contiguous
          = true ∧
        (audio_buffer.mk_channels_are_contiguous (Ptr.addr 1000) 1 4).frames_are_contiguous
          = false) := by
  decide

/-- C11 (amended): for every frame count `F` and every channel count `C` other than 1
the view built with the channels-contiguous tag reports `channels_are_contiguous()`
true and `frames_are_contiguous()` false, the inverse of the frames-contiguous case and
the flags `audio_buffer_contiguous` reports. -/
theorem audio_buffer_channels_are_contiguous_flags (buffer : Ptr) (C F : Nat) (hC : C ≠ 1) :
    (audio_buffer.mk_channels_are_contiguous buffer C F).channels_are_contiguous = true ∧
      (audio_buffer.mk_channels_are_contiguous buffer C F).frames_are_contiguous = false ∧
      (audio_buffer.mk_channels_are_contiguous buffer C F).channels_are_contiguous
        = (audio_buffer_contiguous.mk buffer C F).channels_are_contiguous ∧
      (audio_buffer.mk_channels_are_contiguous buffer C F).frames_are_contiguous
        = (audio_buffer_contiguous.mk buffer C F).frames_are_contiguous := by
  have h1 : (audio_buffer.mk_channels_are_contiguous buffer C F).channels_are_contiguous
      = true := by
    simp [audio_buffer.mk_channels_are_contiguous, audio_buffer.channels_are_contiguous]
  have h2 : (audio_buffer.mk_channels_are_contiguous buffer C F).frames_are_contiguous
      = false := by
    simp [audio_buffer.mk_channels_are_contiguous, audio_buffer.frames_are_contiguous]
    omega
  exact ⟨h1, h2, h1, h2⟩

/-- Witness for C11 (amended): two channels, four frames. -/
theorem audio_buffer_channels_are_contiguous_flags_witness :
    2 ≠ 1 ∧
      (audio_buffer.mk_channels_are_contiguous (Ptr.addr 1000) 2 4).channels_are_contiguous
        = true ∧
      (audio_buffer.mk_channels_are_contiguous (Ptr.addr 1000) 2 4).frames_are_contiguous
        = false :=
  ⟨by decide,
    (audio_buffer_channels_are_contiguous_flags (Ptr.addr 1000) 2 4 (by decide)).1,
    (audio_buffer_channels_are_contiguous_flags (Ptr.addr 1000) 2 4 (by decide)).2.1⟩

/-- C12 (counterexample): a mono view built with the plain planar tag (one plane, four
frames) reports `frames_are_contiguous()` true, because its frame stride 1 equals its
channel count, while `is_contiguous()` is false and `data()` is the null marker; so a
true flag does not imply a usable base address. `audio_buffer_planar` over the same
arguments reports the flag false. -/
theorem audio_buffer_flags_imply_contiguous_counterexample :
    ¬ (((audio_buffer.mk_channels_are_planar [Ptr.addr 100] 1 4).channels_are_contiguous
            = true ∨
          (audio_buffer.mk_channels_are_planar [Ptr.addr 100] 1 4).frames_are_contiguous
            = true) →
        (audio_buffer.mk_channels_are_planar [Ptr.addr 100] 1 4).is_contiguous = true ∧
          (audio_buffer.mk_channels_are_planar [Ptr.addr 100] 1 4).data ≠ some nullptr) := by
  decide

/-- C12 (amended): for every view built by one of the four constructors `data()` is the
null marker when `is_contiguous()` is false; for a view built with the frames-contiguous
tag (any `C`, `F`) or with the channels-contiguous tag and `F ≠ 0`,
`channels_are_contiguous()` or `frames_are_contiguous()` being true implies that
`is_contiguous()` is true and `data()` is the base pointer; and a planar-tagged view
with `F ≠ 0` whose frame stride (1 for the plain tag) differs from `C` reports both
flags false, as `audio_buffer_planar` does. -/
theorem audio_buffer_flags_imply_contiguous (buffer : Ptr) (planes : List Ptr)
    (C F frame_stride : Nat) :
    (((audio_buffer.mk_frames_are_contiguous buffer C F).channels_are_contiguous = true ∨
          (audio_buffer.mk_frames_are_contiguous buffer C F).frames_are_contiguous = true) →
        (audio_buffer.mk_frames_are_contiguous buffer C F).is_contiguous = true ∧
          (audio_buffer.mk_frames_are_contiguous buffer C F).data = some buffer ∧
          (audio_buffer.mk_frames_are_contiguous buffer C F).data_const = some buffer) ∧
      (F ≠ 0 →
        ((audio_buffer.mk_channels_are_contiguous buffer C F).channels_are_contiguous = true ∨
          (audio_buffer.mk_channels_are_contiguous buffer C F).frames_are_contiguous = true) →
        (audio_buffer.mk_channels_are_contiguous buffer C F).is_contiguous = true ∧
          (audio_buffer.mk_channels_are_contiguous buffer C F).data = some buffer ∧
          (audio_buffer.mk_channels_are_contiguous buffer C F).data_const = some buffer) ∧
      (F ≠ 0 → C ≠ 1 →
        (audio_buffer.mk_channels_are_planar planes C F).channels_are_contiguous = false ∧
          (audio_buffer.mk_channels_are_planar planes C F).frames_are_contiguous = false) ∧
      (F ≠ 0 → C ≠ frame_stride →
        (audio_buffer.mk_channels_are_planar_and_strided planes C F
            frame_stride).channels_are_contiguous = false ∧
          (audio_buffer.mk_channels_are_planar_and_strided planes C F
            frame_stride).frames_are_contiguous = false) ∧
      ((audio_buffer_planar.mk planes C F).channels_are_contiguous = false ∧
        (audio_buffer_planar.mk planes C F).frames_are_contiguous = false) ∧
      ((audio_buffer.mk_channels_are_planar planes C F).is_contiguous = false ∧
        (audio_buffer.mk_channels_are_planar planes C F).data = some nullptr ∧
        (audio_buffer.mk_channels_are_planar_and_strided planes C F
          frame_stride).is_contiguous = false ∧
        (audio_buffer.mk_channels_are_planar_and_strided planes C F frame_stride).data
          = some nullptr) := by
  have hbase := audio_buffer_is_contiguous_and_data buffer planes C F frame_stride
  refine ⟨fun _ => hbase.1, fun hF _ => hbase.2.2.2 hF, ?_, ?_, ⟨rfl, rfl⟩,
    ⟨rfl, rfl, rfl, rfl⟩⟩
  · intro hF hC
    have hF0 : (0 : Nat) ≠ F := fun h => hF h.symm
    have hC1 : (1 : Nat) ≠ C := fun h => hC h.symm
    simp [audio_buffer.mk_channels_are_planar, audio_buffer.channels_are_contiguous,
      audio_buffer.frames_are_contiguous, hF0, hC1]
  · intro hF hC
    have hF0 : (0 : Nat) ≠ F := fun h => hF h.symm
    have hC1 : frame_stride ≠ C := fun h => hC h.symm
    simp [audio_buffer.mk_channels_are_planar_and_strided,
      audio_buffer.channels_are_contiguous, audio_buffer.frames_are_contiguous, hF0, hC1]

/-- Witness for C12 (amended): two channels, four frames, frame stride 1. -/
theorem audio_buffer_flags_imply_contiguous_witness :
    (4 ≠ 0 ∧ 2 ≠ 1) ∧
      (audio_buffer.mk_channels_are_contiguous (Ptr.addr 1000) 2 4).is_contiguous = true ∧
      (audio_buffer.mk_channels_are_contiguous (Ptr.addr 1000) 2 4).data
        = some (Ptr.addr 1000) ∧
      (audio_buffer.mk_channels_are_planar [Ptr.addr 100, Ptr.addr 200] 2 4).frames_are_contiguous
        = false :=
  ⟨⟨by decide, by decide⟩,
    ((audio_buffer_flags_imply_contiguous (Ptr.addr 1000) [Ptr.addr 100, Ptr.addr 200]
      2 4 1).2.1 (by decide) (Or.inl rfl)).1,
    ((audio_buffer_flags_imply_contiguous (Ptr.addr 1000) [Ptr.addr 100, Ptr.addr 200]
      2 4 1).2.1 (by decide) (Or.inl rfl)).2.1,
    ((audio_buffer_flags_imply_contiguous (Ptr.addr 1000) [Ptr.addr 100, Ptr.addr 200]
      2 4 1).2.2.1 (by decide) (by decide)).2⟩

/-! ## Frame contiguity and addressing -/

/-- For a valid pair of a buffer that fits the address space, both overloads of
`operator()` of the view built with the frames-contiguous tag subscript the buffer at
`f * C + c`. -/
theorem frames_tag_refers (w : Nat) (buffer : Ptr) (C F c f : Nat)
    (hc : c < C) (hf : f < F) (hfit : C * F < 2 ^ w) :
    (audio_buffer.mk_frames_are_contiguous buffer C F).operator_call w c f
        = buffer.subscript (f * C + c) ∧
      (audio_buffer.mk_frames_are_contiguous buffer C F).operator_call_const w c f
        = buffer.subscript (f * C + c) := by
  have hsub := frames_contiguous_subscript_eq_interleaved w C c f
  have h := interleaved_subscript_eq hc hf hfit
  constructor
  · show buffer.subscript (size_add w (size_mul w 1 c) (size_mul w C f)) = _
    rw [hsub, h]
  · show buffer.subscript (size_add w (size_mul w 1 c) (size_mul w C f)) = _
    rw [hsub, h]

/-- For a valid pair of a buffer that fits the address space, both overloads of
`operator()` of the view built with the channels-contiguous tag subscript the buffer at
`c * F + f`. -/
theorem channels_tag_refers (w : Nat) (buffer : Ptr) (C F c f : Nat)
    (hc : c < C) (hf : f < F) (hfit : C * F < 2 ^ w) :
    (audio_buffer.mk_channels_are_contiguous buffer C F).operator_call w c f
        = buffer.subscript (c * F + f) ∧
      (audio_buffer.mk_channels_are_contiguous buffer C F).operator_call_const w c f
        = buffer.subscript (c * F + f) := by
  have hlt : c * F + f < F * C := index_lt_of_valid hf hc
  have hFC : F * C = C * F := Nat.mul_comm F C
  have hsub := channels_contiguous_subscript_eq_contiguous w F c f (by omega)
  have h := contiguous_subscript_eq hc hf hfit
  have hF0 : F ≠ 0 := by omega
  have hcont : (audio_buffer.mk_channels_are_contiguous buffer C F).is_contiguous = true := by
    simp [audio_buffer.mk_channels_are_contiguous, audio_buffer.is_contiguous, hF0]
  constructor
  · unfold audio_buffer.operator_call
    rw [if_pos hcont]
    show buffer.subscript (size_add w (size_mul w F c) (size_mul w 1 f)) = _
    rw [hsub, h]
  · unfold audio_buffer.operator_call_const
    rw [if_pos hcont]
    show buffer.subscript (size_add w (size_mul w F c) (size_mul w 1 f)) = _
    rw [hsub, h]

/-- C13: for every view whose `frames_are_contiguous()` is true (`audio_buffer_interleaved`,
and the runtime-polymorphic `audio_buffer` built by any of its constructors when its flag
is true), over storage of `C` channels and `F` frames that fits the address space, for
every valid channel `c` (whose plane is `p` in the planar cases) and every `f` with
`f + 1 < F`, the positions addressed at `(c, f)` and `(c, f + 1)` lie in the same buffer
and are exactly `size_channels()` sample positions apart (both overloads). -/
theorem frames_are_contiguous_frame_step (w : Nat) (buffer : Ptr) (planes : List Ptr)
    (p : Ptr) (C F frame_stride c f : Nat) (hc : c < C) (hf : f + 1 < F)
    (hfit : C * F < 2 ^ w) :
    ((audio_buffer_interleaved.mk buffer C F).frames_are_contiguous = true ∧
        OneFrameApart buffer
          ((audio_buffer_interleaved.mk buffer C F).operator_call w c f)
          ((audio_buffer_interleaved.mk buffer C F).operator_call w c (f + 1))
          (audio_buffer_interleaved.mk buffer C F).size_channels ∧
        OneFrameApart buffer
          ((audio_buffer_interleaved.mk buffer C F).operator_call_const w c f)
          ((audio_buffer_interleaved.mk buffer C F).operator_call_const w c (f + 1))
          (audio_buffer_interleaved.mk buffer C F).size_channels) ∧
      ((audio_buffer.mk_frames_are_contiguous buffer C F).frames_are_contiguous = true →
        OneFrameApart buffer
          ((audio_buffer.mk_frames_are_contiguous buffer C F).operator_call w c f)
          ((audio_buffer.mk_frames_are_contiguous buffer C F).operator_call w c (f + 1))
          (audio_buffer.mk_frames_are_contiguous buffer C F).size_channels ∧
        OneFrameApart buffer
          ((audio_buffer.mk_frames_are_contiguous buffer C F).operator_call_const w c f)
          ((audio_buffer.mk_frames_are_contiguous buffer C F).operator_call_const w c (f + 1))
          (audio_buffer.mk_frames_are_contiguous buffer C F).size_channels) ∧
      ((audio_buffer.mk_channels_are_contiguous buffer C F).frames_are_contiguous = true →
        OneFrameApart buffer
          ((audio_buffer.mk_channels_are_contiguous buffer C F).operator_call w c f)
          ((audio_buffer.mk_channels_are_contiguous buffer C F).operator_call w c (f + 1))
          (audio_buffer.mk_channels_are_contiguous buffer C F).size_channels ∧
        OneFrameApart buffer
          ((audio_buffer.mk_channels_are_contiguous buffer C F).operator_call_const w c f)
          ((audio_buffer.mk_channels_are_contiguous buffer C F).operator_call_const w c (f + 1))
          (audio_buffer.mk_channels_are_contiguous buffer C F).size_channels) ∧
      (planes[c]? = some p →
        (audio_buffer.mk_channels_are_planar planes C F).frames_are_contiguous = true →
        OneFrameApart p
          ((audio_buffer.mk_channels_are_planar planes C F).operator_call w c f)
          ((audio_buffer.mk_channels_are_planar planes C F).operator_call w c (f + 1))
          (audio_buffer.mk_channels_are_planar planes C F).size_channels ∧
        OneFrameApart p
          ((audio_buffer.mk_channels_are_planar planes C F).operator_call_const w c f)
          ((audio_buffer.mk_channels_are_planar planes C F).operator_call_const w c (f + 1))
          (audio_buffer.mk_channels_are_planar planes C F).size_channels) ∧
      (planes[c]? = some p →
        (audio_buffer.mk_channels_are_planar_and_strided planes C F
          frame_stride).frames_are_contiguous = true →
        OneFrameApart p
          ((audio_buffer.mk_channels_are_planar_and_strided planes C F
            frame_stride).operator_call w c f)
          ((audio_buffer.mk_channels_are_planar_and_strided planes C F
            frame_stride).operator_call w c (f + 1))
          (audio_buffer.mk_channels_are_planar_and_strided planes C F
            frame_stride).size_channels ∧
        OneFrameApart p
          ((audio_buffer.mk_channels_are_planar_and_strided planes C F
            frame_stride).operator_call_const w c f)
          ((audio_buffer.mk_channels_are_planar_and_strided planes C F
            frame_stride).operator_call_const w c (f + 1))
          (audio_buffer.mk_channels_are_planar_and_strided planes C F
            frame_stride).size_channels) := by
  have hf0 : f < F := by omega
  have hstep : (f + 1) * C + c = f * C + c + C := by ring
  have hlt1 : (f + 1) * C + c < C * F := index_lt_of_valid hc hf
  refine ⟨⟨rfl, ?_, ?_⟩, ?_, ?_, ?_, ?_⟩
  · refine ⟨f * C + c, (interleaved_refers w buffer C F c f hc hf0 hfit).1, ?_⟩
    rw [(interleaved_refers w buffer C F c (f + 1) hc hf hfit).1, hstep]
    rfl
  · refine ⟨f * C + c, (interleaved_refers w buffer C F c f hc hf0 hfit).2, ?_⟩
    rw [(interleaved_refers w buffer C F c (f + 1) hc hf hfit).2, hstep]
    rfl
  · intro _
    constructor
    · refine ⟨f * C + c, (frames_tag_refers w buffer C F c f hc hf0 hfit).1, ?_⟩
      rw [(frames_tag_refers w buffer C F c (f + 1) hc hf hfit).1, hstep]
      rfl
    · refine ⟨f * C + c, (frames_tag_refers w buffer C F c f hc hf0 hfit).2, ?_⟩
      rw [(frames_tag_refers w buffer C F c (f + 1) hc hf hfit).2, hstep]
      rfl
  · intro hflag
    have hC : C = 1 := by
      have : (1 : Nat) = C := by
        simpa [audio_buffer.mk_channels_are_contiguous, audio_buffer.frames_are_contiguous]
          using hflag
      exact this.symm
    have hnext : c * F + (f + 1) = c * F + f + C := by omega
    constructor
    · refine ⟨c * F + f, (channels_tag_refers w buffer C F c f hc hf0 hfit).1, ?_⟩
      rw [(channels_tag_refers w buffer C F c (f + 1) hc hf hfit).1, hnext]
      rfl
    · refine ⟨c * F + f, (channels_tag_refers w buffer C F c f hc hf0 hfit).2, ?_⟩
      rw [(channels_tag_refers w buffer C F c (f + 1) hc hf hfit).2, hnext]
      rfl
  · intro hp hflag
    have hC : C = 1 := by
      have : (1 : Nat) = C := by
        simpa [audio_buffer.mk_channels_are_planar, audio_buffer.frames_are_contiguous]
          using hflag
      exact this.symm
    have hF : F < 2 ^ w := by
      rw [hC, Nat.one_mul] at hfit
      exact hfit
    have e0 := audio_buffer_planes_operator_call w planes 1 C F c f p hp
    have e1 := audio_buffer_planes_operator_call w planes 1 C F c (f + 1) p hp
    have m0 : size_mul w f 1 = f := by
      rw [size_mul_of_lt (by omega), Nat.mul_one]
    have m1 : size_mul w (f + 1) 1 = f + C := by
      rw [size_mul_of_lt (by omega), Nat.mul_one, hC]
    rw [m0] at e0
    rw [m1] at e1
    exact ⟨⟨f, e0.1, e1.1⟩, ⟨f, e0.2, e1.2⟩⟩
  · intro hp hflag
    have hS : frame_stride = C := by
      simpa [audio_buffer.mk_channels_are_planar_and_strided,
        audio_buffer.frames_are_contiguous] using hflag
    have e0 := audio_buffer_planes_operator_call w planes frame_stride C F c f p hp
    have e1 := audio_buffer_planes_operator_call w planes frame_stride C F c (f + 1) p hp
    have hlt0 : f * C + c < C * F := index_lt_of_valid hc hf0
    have m0 : size_mul w f frame_stride = f * C := by
      rw [hS, size_mul_of_lt (by omega)]
    have m1 : size_mul w (f + 1) frame_stride = f * C + C := by
      rw [hS, size_mul_of_lt (by omega)]
      ring
    rw [m0] at e0
    rw [m1] at e1
    exact ⟨⟨f * C, e0.1, e1.1⟩, ⟨f * C, e0.2, e1.2⟩⟩

/-- Witness for C13: two channels, four frames on a 64-bit platform, buffer at address
1000, planes at 100 and 200 with frame stride 2; at channel 1 the interleaved view
addresses frames 2 and 3 at cells 1005 and 1007, two positions apart. -/
theorem frames_are_contiguous_frame_step_witness :
    (1 < 2 ∧ 2 + 1 < 4 ∧ 2 * 4 < 2 ^ 64) ∧
      OneFrameApart (Ptr.addr 1000)
        ((audio_buffer_interleaved.mk (Ptr.addr 1000) 2 4).operator_call 64 1 2)
        ((audio_buffer_interleaved.mk (Ptr.addr 1000) 2 4).operator_call 64 1 (2 + 1))
        (audio_buffer_interleaved.mk (Ptr.addr 1000) 2 4).size_channels ∧
      (audio_buffer_interleaved.mk (Ptr.addr 1000) 2 4).operator_call 64 1 2 = some 1005 ∧
      (audio_buffer_interleaved.mk (Ptr.addr 1000) 2 4).operator_call 64 1 (2 + 1)
        = some (1005 + 2) :=
  ⟨⟨by decide, by decide, by norm_num⟩,
    (frames_are_contiguous_frame_step 64 (Ptr.addr 1000) [Ptr.addr 100, Ptr.addr 200]
      (Ptr.addr 200) 2 4 2 1 2 (by decide) (by decide) (by norm_num)).1.2.1,
    by decide, by decide⟩

/-! ## The offset adapter -/

/-- Subtracting `n ≤ a` from a `std::size_t` value `a` does not wrap. -/
theorem size_sub_of_le {w a n : Nat} (ha : a < 2 ^ w) (hn : n ≤ a) :
    size_sub w a n = a - n := by
  unfold size_sub
  have hn2 : n % 2 ^ w = n := Nat.mod_eq_of_lt (by omega)
  rw [hn2]
  have h : a + (2 ^ w - n) = (a - n) + 2 ^ w := by omega
  rw [h, Nat.add_mod_right]
  exact Nat.mod_eq_of_lt (by omega)

/-- C14: for every wrapped view `V` (of any view type) whose frame count `F` is a
`std::size_t` value and every offset `n ≤ F`, the adapter `audio_buffer_with_offset(V, n)`
has `size_frames()` equal to `F - n`, without wrap-around, and `size_channels()` equal to
`V.size_channels()`. -/
theorem audio_buffer_with_offset_sizes {B : Type} [AudioBufferView B] (w : Nat) (V : B)
    (n : Nat) (hF : AudioBufferView.size_frames w V < 2 ^ w)
    (hn : n ≤ AudioBufferView.size_frames w V) :
    (audio_buffer_with_offset.mk V n).size_frames w = AudioBufferView.size_frames w V - n ∧
      (audio_buffer_with_offset.mk V n).size_frames w + n = AudioBufferView.size_frames w V ∧
      (audio_buffer_with_offset.mk V n).size_channels = AudioBufferView.size_channels V := by
  have h : (audio_buffer_with_offset.mk V n).size_frames w
      = AudioBufferView.size_frames w V - n := size_sub_of_le hF hn
  refine ⟨h, ?_, rfl⟩
  rw [h]
  omega

/-- Witness for C14: an interleaved view of two channels and four frames on a 64-bit
platform, offset 3: one frame remains, two channels. -/
theorem audio_buffer_with_offset_sizes_witness :
    ((4 : Nat) < 2 ^ 64 ∧ 3 ≤ 4) ∧
      (audio_buffer_with_offset.mk (audio_buffer_interleaved.mk (Ptr.addr 1000) 2 4)
        3).size_frames 64 = 1 ∧
      (audio_buffer_with_offset.mk (audio_buffer_interleaved.mk (Ptr.addr 1000) 2 4)
        3).size_channels = 2 :=
  ⟨⟨by norm_num, by decide⟩,
    (audio_buffer_with_offset_sizes 64 (audio_buffer_interleaved.mk (Ptr.addr 1000) 2 4) 3
      (show (4 : Nat) < 2 ^ 64 by norm_num) (show 3 ≤ 4 by decide)).1,
    (audio_buffer_with_offset_sizes 64 (audio_buffer_interleaved.mk (Ptr.addr 1000) 2 4) 3
      (show (4 : Nat) < 2 ^ 64 by norm_num) (show 3 ≤ 4 by decide)).2.2⟩

/-- C15: for every wrapped view `V` of every view type, offset `n` and indices `(c, f)`,
both overloads of `operator()` of `audio_buffer_with_offset(V, n)` refer to what the same
overload of `V` refers to at `(c, n + f)`, the sum being the `std::size_t` sum
`m_offset + frame`; when `n + f` does not wrap that is `V(c, n + f)` literally. -/
theorem audio_buffer_with_offset_operator_call_forwards {B : Type} [AudioBufferView B]
    (w : Nat) (V : B) (n c f : Nat) :
    (audio_buffer_with_offset.mk V n).operator_call w c f
        = AudioBufferView.operator_call w V c ((n + f) % 2 ^ w) ∧
      (audio_buffer_with_offset.mk V n).operator_call_const w c f
        = AudioBufferView.operator_call_const w V c ((n + f) % 2 ^ w) ∧
      (n + f < 2 ^ w →
        (audio_buffer_with_offset.mk V n).operator_call w c f
          = AudioBufferView.operator_call w V c (n + f) ∧
        (audio_buffer_with_offset.mk V n).operator_call_const w c f
          = AudioBufferView.operator_call_const w V c (n + f)) := by
  refine ⟨rfl, rfl, fun h => ?_⟩
  have e : size_add w n f = n + f := size_add_of_lt h
  constructor
  · show AudioBufferView.operator_call w V c (size_add w n f) = _
    rw [e]
  · show AudioBufferView.operator_call_const w V c (size_add w n f) = _
    rw [e]

/-- Witness for C15: an interleaved view of two channels and four frames at address 1000
on a 64-bit platform, offset 1; the adapter at `(1, 2)` is the view at `(1, 3)`, cell
1007. -/
theorem audio_buffer_with_offset_operator_call_forwards_witness :
    1 + 2 < 2 ^ 64 ∧
      (audio_buffer_with_offset.mk (audio_buffer_interleaved.mk (Ptr.addr 1000) 2 4)
          1).operator_call 64 1 2
        = (audio_buffer_interleaved.mk (Ptr.addr 1000) 2 4).operator_call 64 1 (1 + 2) ∧
      (audio_buffer_interleaved.mk (Ptr.addr 1000) 2 4).operator_call 64 1 (1 + 2)
        = some 1007 :=
  ⟨by norm_num,
    ((audio_buffer_with_offset_operator_call_forwards 64
      (audio_buffer_interleaved.mk (Ptr.addr 1000) 2 4) 1 1 2).2.2 (by norm_num)).1,
    by decide⟩

/-- C16: for every wrapped view `V` of every view type and every offset `n` (zero
included), the adapter is contiguous exactly when `V` is contiguous and
frames-contiguous, and its `channels_are_contiguous()` and `frames_are_contiguous()` are
those of `V`; hence an adapter over `audio_buffer_contiguous` or over
`audio_buffer_planar` is never contiguous and its `data()` (both overloads) is the null
marker. -/
theorem audio_buffer_with_offset_contiguity (w : Nat) :
    (∀ (B : Type) [AudioBufferView B] (V : B) (n : Nat),
        ((audio_buffer_with_offset.mk V n).is_contiguous = true ↔
          (AudioBufferView.is_contiguous V = true ∧
            AudioBufferView.frames_are_contiguous V = true)) ∧
        (audio_buffer_with_offset.mk V n).channels_are_contiguous
          = AudioBufferView.channels_are_contiguous V ∧
        (audio_buffer_with_offset.mk V n).frames_are_contiguous
          = AudioBufferView.frames_are_contiguous V) ∧
      (∀ (V : audio_buffer_contiguous) (n : Nat),
        (audio_buffer_with_offset.mk V n).is_contiguous = false ∧
        (audio_buffer_with_offset.mk V n).data w = some nullptr ∧
        (audio_buffer_with_offset.mk V n).data_const w = some nullptr) ∧
      (∀ (V : audio_buffer_planar) (n : Nat),
        (audio_buffer_with_offset.mk V n).is_contiguous = false ∧
        (audio_buffer_with_offset.mk V n).data w = some nullptr ∧
        (audio_buffer_with_offset.mk V n).data_const w = some nullptr) := by
  refine ⟨fun B _ V n => ⟨?_, rfl, rfl⟩, fun V n => ⟨rfl, rfl, rfl⟩,
    fun V n => ⟨rfl, rfl, rfl⟩⟩
  show (AudioBufferView.is_contiguous V && AudioBufferView.frames_are_contiguous V) = true ↔ _
  exact Bool.and_eq_true _ _ ▸ Iff.rfl

/-! ## `data()` of the offset adapter -/

/-- Subscripting an advanced pointer: `(p + k)[i]` is `p[k + i]`. -/
theorem ptr_add_subscript (p : Ptr) (k i : Nat) :
    (p.add k).bind (fun q => q.subscript i) = p.subscript (k + i) := by
  cases p with
  | null => cases k <;> rfl
  | addr a =>
    show some (a + k + i) = some (a + (k + i))
    rw [Nat.add_assoc]

/-- The interleaved subscript `m_channels * x + c` when it does not wrap. -/
theorem interleaved_subscript_of_lt {w C c x : Nat} (h : C * x + c < 2 ^ w) :
    size_add w (size_mul w C x) c = C * x + c := by
  rw [size_mul_of_lt (by omega)]
  exact size_add_of_lt h

/-- A contiguous adapter whose wrapped view has base pointer `buffer`, `C` channels and
frame count `F`, and whose wrapped `operator()` subscripts `buffer` in interleaved order
at the frames the adapter forwards to, has a `data()` usable for bulk access. -/
theorem offset_data_addresses_of_interleaved_order {B : Type} [AudioBufferView B] (w : Nat)
    (V : B) (buffer : Ptr) (C F n : Nat) (hn : n ≤ F) (hF : F < 2 ^ w)
    (hfit : C * F < 2 ^ w)
    (hcont : (audio_buffer_with_offset.mk V n).is_contiguous = true)
    (hC : AudioBufferView.size_channels V = C)
    (hFr : AudioBufferView.size_frames w V = F)
    (hd : AudioBufferView.data w V = some buffer)
    (hdc : AudioBufferView.data_const w V = some buffer)
    (hop : ∀ c x, c < C ∨ c = 0 → x ≤ F → C * x + c ≤ C * F →
      AudioBufferView.operator_call w V c x = buffer.subscript (C * x + c) ∧
      AudioBufferView.operator_call_const w V c x = buffer.subscript (C * x + c)) :
    OffsetDataAddressesSamples w (audio_buffer_with_offset.mk V n) := by
  have hCn : C * n ≤ C * F := Nat.mul_le_mul_left C hn
  have hmul : size_mul w C n = C * n := size_mul_of_lt (by omega)
  have hsc : (audio_buffer_with_offset.mk V n).size_channels = C := hC
  have hsf : (audio_buffer_with_offset.mk V n).size_frames w = F - n := by
    show size_sub w (AudioBufferView.size_frames w V) n = F - n
    rw [hFr]
    exact size_sub_of_le hF hn
  have hdata : (audio_buffer_with_offset.mk V n).data w = buffer.add (C * n) := by
    unfold audio_buffer_with_offset.data
    rw [hcont, hsc]
    show (AudioBufferView.data w V).bind (fun p => p.add (size_mul w C n)) = _
    rw [hd, hmul]
    rfl
  have hdatac : (audio_buffer_with_offset.mk V n).data_const w = buffer.add (C * n) := by
    unfold audio_buffer_with_offset.data_const
    rw [hcont, hsc]
    show (AudioBufferView.data_const w V).bind (fun p => p.add (size_mul w C n)) = _
    rw [hdc, hmul]
    rfl
  have hfwd : ∀ c f, n + f ≤ F →
      (audio_buffer_with_offset.mk V n).operator_call w c f
          = AudioBufferView.operator_call w V c (n + f) ∧
        (audio_buffer_with_offset.mk V n).operator_call_const w c f
          = AudioBufferView.operator_call_const w V c (n + f) := by
    intro c f hle
    have e : size_add w n f = n + f := size_add_of_lt (by omega)
    constructor
    · show AudioBufferView.operator_call w V c (size_add w n f) = _
      rw [e]
    · show AudioBufferView.operator_call_const w V c (size_add w n f) = _
      rw [e]
  refine ⟨?_, ?_, ?_, ?_, ?_⟩
  · rw [hdata, hsc]
    show _ = (AudioBufferView.data w V).bind (fun p => p.add (C * n))
    rw [hd]
    rfl
  · rw [hdatac, hsc]
    show _ = (AudioBufferView.data_const w V).bind (fun p => p.add (C * n))
    rw [hdc]
    rfl
  · rw [hdata, ptr_add_subscript, (hfwd 0 0 (by omega)).1,
      (hop 0 (n + 0) (Or.inr rfl) (by omega) (by simpa using hCn)).1]
    rfl
  · rw [hdatac, ptr_add_subscript, (hfwd 0 0 (by omega)).2,
      (hop 0 (n + 0) (Or.inr rfl) (by omega) (by simpa using hCn)).2]
    rfl
  · intro c f hc hf
    rw [hsc] at hc
    rw [hsf] at hf
    have hnf : n + f < F := by omega
    have hlt : (n + f) * C + c < C * F := index_lt_of_valid hc hnf
    have hidx : C * (n + f) + c = C * n + (f * C + c) := by ring
    have hle : C * (n + f) + c ≤ C * F := by
      have : C * (n + f) = (n + f) * C := Nat.mul_comm _ _
      omega
    have h1 := hop c (n + f) (Or.inl hc) (by omega) hle
    rw [hdata, hdatac, hsc, ptr_add_subscript, (hfwd c f (by omega)).1,
      (hfwd c f (by omega)).2, h1.1, h1.2, hidx]
    exact ⟨rfl, rfl⟩

/-- C17: for a wrapped view of `C` channels and `F` frames that fits the address space
and an offset `n ≤ F`, whenever `audio_buffer_with_offset(V, n).is_contiguous()` is true,
with `V` an `audio_buffer_interleaved` or a runtime-polymorphic `audio_buffer` built by
any constructor, the adapter's `data()` is `V.data() + size_channels() * n`, addresses
the adapter's sample `(0, 0)`, and `data()[f * size_channels() + c]` is the sample
`adapter(c, f)` for every valid `(c, f)`; over `audio_buffer_interleaved` and the
frames-contiguous tag the adapter is always contiguous, over the channels-contiguous tag
it is when there is one channel (channel stride `F`), and over the planar tags never. -/
theorem audio_buffer_with_offset_data_addresses (w : Nat) (buffer : Ptr)
    (planes : List Ptr) (C F frame_stride n : Nat) (hn : n ≤ F) (hF : F < 2 ^ w)
    (hfit : C * F < 2 ^ w) :
    ((audio_buffer_with_offset.mk (audio_buffer_interleaved.mk buffer C F) n).is_contiguous
          = true ∧
        OffsetDataAddressesSamples w
          (audio_buffer_with_offset.mk (audio_buffer_interleaved.mk buffer C F) n)) ∧
      ((audio_buffer_with_offset.mk (audio_buffer.mk_frames_are_contiguous buffer C F)
          n).is_contiguous = true ∧
        OffsetDataAddressesSamples w
          (audio_buffer_with_offset.mk (audio_buffer.mk_frames_are_contiguous buffer C F) n)) ∧
      ((audio_buffer_with_offset.mk (audio_buffer.mk_channels_are_contiguous buffer C F)
          n).is_contiguous = true →
        OffsetDataAddressesSamples w
          (audio_buffer_with_offset.mk (audio_buffer.mk_channels_are_contiguous buffer C F)
            n)) ∧
      (audio_buffer_with_offset.mk (audio_buffer.mk_channels_are_planar planes C F)
        n).is_contiguous = false ∧
      (audio_buffer_with_offset.mk
        (audio_buffer.mk_channels_are_planar_and_strided planes C F frame_stride)
        n).is_contiguous = false := by
  have hI : (audio_buffer_with_offset.mk (audio_buffer_interleaved.mk buffer C F)
      n).is_contiguous = true := rfl
  have hFt : (audio_buffer_with_offset.mk (audio_buffer.mk_frames_are_contiguous buffer C F)
      n).is_contiguous = true := by
    simp [audio_buffer_with_offset.is_contiguous, AudioBufferView.is_contiguous,
      AudioBufferView.frames_are_contiguous, audio_buffer.is_contiguous,
      audio_buffer.frames_are_contiguous, audio_buffer.mk_frames_are_contiguous]
  refine ⟨⟨hI, ?_⟩, ⟨hFt, ?_⟩, ?_, rfl, rfl⟩
  · refine offset_data_addresses_of_interleaved_order w _ buffer C F n hn hF hfit hI rfl rfl
      rfl rfl ?_
    intro c x _ _ hle
    have h := interleaved_subscript_of_lt (w := w) (C := C) (c := c) (x := x) (by omega)
    constructor
    · show buffer.subscript (size_add w (size_mul w C x) c) = _
      rw [h]
    · show buffer.subscript (size_add w (size_mul w C x) c) = _
      rw [h]
  · refine offset_data_addresses_of_interleaved_order w _ buffer C F n hn hF hfit hFt rfl rfl
      rfl rfl ?_
    intro c x _ _ hle
    have h := interleaved_subscript_of_lt (w := w) (C := C) (c := c) (x := x) (by omega)
    have hsub := frames_contiguous_subscript_eq_interleaved w C c x
    constructor
    · show buffer.subscript (size_add w (size_mul w 1 c) (size_mul w C x)) = _
      rw [hsub, h]
    · show buffer.subscript (size_add w (size_mul w 1 c) (size_mul w C x)) = _
      rw [hsub, h]
  · intro hcont
    have hboth : (audio_buffer.mk_channels_are_contiguous buffer C F).is_contiguous = true ∧
        (audio_buffer.mk_channels_are_contiguous buffer C F).frames_are_contiguous = true := by
      have h : ((audio_buffer.mk_channels_are_contiguous buffer C F).is_contiguous &&
          (audio_buffer.mk_channels_are_contiguous buffer C F).frames_are_contiguous)
          = true := hcont
      exact Bool.and_eq_true_iff.1 h
    have hC : C = 1 := by
      have : (1 : Nat) = C := by
        simpa [audio_buffer.mk_channels_are_contiguous, audio_buffer.frames_are_contiguous]
          using hboth.2
      exact this.symm
    have hd : (audio_buffer.mk_channels_are_contiguous buffer C F).data = some buffer := by
      unfold audio_buffer.data
      rw [if_pos hboth.1]
      rfl
    have hdc : (audio_buffer.mk_channels_are_contiguous buffer C F).data_const
        = some buffer := by
      unfold audio_buffer.data_const
      rw [if_pos hboth.1]
      rfl
    refine offset_data_addresses_of_interleaved_order w _ buffer C F n hn hF hfit hcont rfl
      rfl hd hdc ?_
    intro c x hc hx _
    have hc0 : c = 0 := by omega
    have hidx : size_add w (size_mul w F c) (size_mul w 1 x) = C * x + c := by
      rw [hc0, hC]
      unfold size_add size_mul
      rw [Nat.mul_zero, Nat.zero_mod, Nat.zero_add, Nat.mod_mod, Nat.one_mul]
      rw [Nat.mod_eq_of_lt (by omega)]
      omega
    constructor
    · show audio_buffer.operator_call w _ c x = _
      unfold audio_buffer.operator_call
      rw [if_pos hboth.1]
      show buffer.subscript (size_add w (size_mul w F c) (size_mul w 1 x)) = _
      rw [hidx]
    · show audio_buffer.operator_call_const w _ c x = _
      unfold audio_buffer.operator_call_const
      rw [if_pos hboth.1]
      show buffer.subscript (size_add w (size_mul w F c) (size_mul w 1 x)) = _
      rw [hidx]

/-- Witness for C17: a channels-contiguous-tagged view with one channel and four frames
(channel stride 4) at address 1000 on a 64-bit platform, offset 1: the adapter is
contiguous, its `data()` is address 1001, and `data()[2]` is the sample `adapter(0, 2)`,
cell 1003. -/
theorem audio_buffer_with_offset_data_addresses_witness :
    (1 ≤ 4 ∧ 4 < 2 ^ 64 ∧ 1 * 4 < 2 ^ 64 ∧
        (audio_buffer_with_offset.mk
          (audio_buffer.mk_channels_are_contiguous (Ptr.addr 1000) 1 4) 1).is_contiguous
          = true) ∧
      OffsetDataAddressesSamples 64
        (audio_buffer_with_offset.mk
          (audio_buffer.mk_channels_are_contiguous (Ptr.addr 1000) 1 4) 1) ∧
      (audio_buffer_with_offset.mk
        (audio_buffer.mk_channels_are_contiguous (Ptr.addr 1000) 1 4) 1).data 64
        = some (Ptr.addr 1001) ∧
      (audio_buffer_with_offset.mk
        (audio_buffer.mk_channels_are_contiguous (Ptr.addr 1000) 1 4) 1).operator_call 64 0 2
        = some 1003 :=
  ⟨⟨by decide, by norm_num, by norm_num, by decide⟩,
    (audio_buffer_with_offset_data_addresses 64 (Ptr.addr 1000) [] 1 4 1 1 (by decide)
      (by norm_num) (by norm_num)).2.2.1 (by decide),
    by decide, by decide⟩

/-! ## The planar validity scan -/

/-- The loop of `planar_audio_buffer_valid_channels` over an array with at least
`maxChannels` entries, entered at `channel ≤ maxChannels`: it returns a counter `k`
with every entry in `[channel, k)` non-null and `k = maxChannels` or entry `k` null,
having read exactly the entries `channel, …, min k (maxChannels - 1)`. -/
theorem planar_audio_buffer_valid_channels_loop_spec (buffers : List Ptr)
    (maxChannels : Nat) (hlen : maxChannels ≤ buffers.length) :
    ∀ (d channel : Nat) (reads : List Nat), maxChannels - channel = d →
      channel ≤ maxChannels →
      ∃ k, planar_audio_buffer_valid_channels_loop buffers maxChannels channel reads
            = some (k, reads ++ List.range' channel (min (k + 1) maxChannels - channel)) ∧
        channel ≤ k ∧ k ≤ maxChannels ∧
        (∀ i, channel ≤ i → i < k → non_null_at buffers i = true) ∧
        (k = maxChannels ∨ buffers[k]? = some Ptr.null) := by
  intro d
  induction d with
  | zero =>
    intro channel reads hd hle
    have hch : channel = maxChannels := by omega
    refine ⟨channel, ?_, Nat.le_refl _, hle, fun i h1 h2 => absurd h1 (by omega),
      Or.inl hch⟩
    rw [planar_audio_buffer_valid_channels_loop, dif_neg (by omega)]
    have h0 : min (channel + 1) maxChannels - channel = 0 := by omega
    rw [h0]
    simp
  | succ d ih =>
    intro channel reads hd hle
    have hlt : channel < maxChannels := by omega
    have hin : channel < buffers.length := by omega
    rw [planar_audio_buffer_valid_channels_loop, dif_pos hlt]
    have hget : buffers[channel]? = some buffers[channel] := List.getElem?_eq_getElem hin
    cases hp : buffers[channel] with
    | null =>
      rw [hp] at hget
      rw [hget]
      refine ⟨channel, ?_, Nat.le_refl _, hle, fun i h1 h2 => absurd h1 (by omega),
        Or.inr hget⟩
      have h1 : min (channel + 1) maxChannels - channel = 1 := by omega
      rw [h1]
      rfl
    | addr a =>
      rw [hp] at hget
      rw [hget]
      obtain ⟨k, hk, hck, hkm, hnn, hend⟩ := ih (channel + 1) (reads ++ [channel])
        (by omega) (by omega)
      refine ⟨k, ?_, by omega, hkm, ?_, hend⟩
      · show planar_audio_buffer_valid_channels_loop buffers maxChannels (channel + 1)
          (reads ++ [channel]) = _
        rw [hk]
        have h1 : min (k + 1) maxChannels - channel
            = (min (k + 1) maxChannels - (channel + 1)) + 1 := by omega
        rw [h1, List.range'_succ, List.append_assoc]
        rfl
      · intro i h1 h2
        rcases Nat.eq_or_lt_of_le h1 with h | h
        · subst h
          unfold non_null_at
          rw [hget]
        · exact hnn i (by omega) h2

/-- The scan over an array with at least `maxChannels` entries returns a counter `k`
and a record of reads with the properties of the loop entered at zero. -/
theorem planar_audio_buffer_valid_channels_returns (buffers : List Ptr)
    (maxChannels : Nat) (hlen : maxChannels ≤ buffers.length) :
    ∃ k, planar_audio_buffer_valid_channels buffers maxChannels = some k ∧
      planar_audio_buffer_valid_channels_reads buffers maxChannels
        = some (List.range' 0 (min (k + 1) maxChannels)) ∧
      k ≤ maxChannels ∧
      (∀ i, i < k → non_null_at buffers i = true) ∧
      (k = maxChannels ∨ buffers[k]? = some Ptr.null) := by
  obtain ⟨k, hk, _, hkm, hnn, hend⟩ :=
    planar_audio_buffer_valid_channels_loop_spec buffers maxChannels hlen maxChannels 0 []
      rfl (Nat.zero_le _)
  refine ⟨k, ?_, ?_, hkm, fun i hi => hnn i (Nat.zero_le _) hi, hend⟩
  · unfold planar_audio_buffer_valid_channels
    rw [hk]
    rfl
  · unfold planar_audio_buffer_valid_channels_reads
    rw [hk]
    rfl

/-- A null entry is not counted as non-null. -/
theorem non_null_at_of_null {buffers : List Ptr} {k : Nat}
    (h : buffers[k]? = some Ptr.null) : non_null_at buffers k = false := by
  unfold non_null_at
  rw [h]

/-- C18: over an array with at least `maxChannels` entries,
`planar_audio_buffer_valid_channels(buffers, maxChannels)` returns a `k ≤ maxChannels`
such that every entry below `k` is non-null and either `k = maxChannels` or entry `k` is
null; `k` is the largest count with all entries below it non-null; and every entry the
scan reads has an index below `maxChannels` and not beyond the first null (all entries
before a read one are non-null). -/
theorem planar_audio_buffer_valid_channels_spec (buffers : List Ptr) (maxChannels : Nat)
    (hlen : maxChannels ≤ buffers.length) :
    ∃ k reads, planar_audio_buffer_valid_channels buffers maxChannels = some k ∧
      planar_audio_buffer_valid_channels_reads buffers maxChannels = some reads ∧
      k ≤ maxChannels ∧
      (∀ i, i < k → non_null_at buffers i = true) ∧
      (k = maxChannels ∨ buffers[k]? = some Ptr.null) ∧
      (∀ k', k' ≤ maxChannels → (∀ i, i < k' → non_null_at buffers i = true) → k' ≤ k) ∧
      (∀ i ∈ reads, i < maxChannels ∧ i ≤ k ∧
        ∀ j, j < i → non_null_at buffers j = true) := by
  obtain ⟨k, hk, hr, hkm, hnn, hend⟩ :=
    planar_audio_buffer_valid_channels_returns buffers maxChannels hlen
  refine ⟨k, _, hk, hr, hkm, hnn, hend, ?_, ?_⟩
  · intro k' hk' hall
    rcases hend with h | h
    · omega
    · by_contra hcon
      have h1 := hall k (by omega)
      rw [non_null_at_of_null h] at h1
      exact Bool.noConfusion h1
  · intro i hi
    have hi2 := List.mem_range'_1.1 hi
    refine ⟨by omega, by omega, fun j hj => hnn j (by omega)⟩

/-- Witness for C18: `[p0, p1, null, p3]` with 4 gives 2, three non-null entries with 3
give 3, and `[null, p1]` with 2 gives 0; in the first case the scan reads entries 0, 1
and 2 only. -/
theorem planar_audio_buffer_valid_channels_spec_witness :
    4 ≤ [Ptr.addr 10, Ptr.addr 20, Ptr.null, Ptr.addr 30].length ∧
      (∃ k reads,
        planar_audio_buffer_valid_channels
            [Ptr.addr 10, Ptr.addr 20, Ptr.null, Ptr.addr 30] 4 = some k ∧
          planar_audio_buffer_valid_channels_reads
            [Ptr.addr 10, Ptr.addr 20, Ptr.null, Ptr.addr 30] 4 = some reads ∧
          k ≤ 4 ∧ ∀ i ∈ reads, i < 4 ∧ i ≤ k) ∧
      planar_audio_buffer_valid_channels
          [Ptr.addr 10, Ptr.addr 20, Ptr.null, Ptr.addr 30] 4 = some 2 ∧
      planar_audio_buffer_valid_channels_reads
          [Ptr.addr 10, Ptr.addr 20, Ptr.null, Ptr.addr 30] 4 = some [0, 1, 2] ∧
      planar_audio_buffer_valid_channels [Ptr.addr 10, Ptr.addr 20, Ptr.addr 30] 3
        = some 3 ∧
      planar_audio_buffer_valid_channels [Ptr.null, Ptr.addr 20] 2 = some 0 := by
  obtain ⟨k, reads, h1, h2, h3, _, _, _, h7⟩ :=
    planar_audio_buffer_valid_channels_spec
      [Ptr.addr 10, Ptr.addr 20, Ptr.null, Ptr.addr 30] 4 (by decide)
  refine ⟨by decide, ⟨k, reads, h1, h2, h3, fun i hi => ⟨(h7 i hi).1, (h7 i hi).2.1⟩⟩,
    ?_, ?_, ?_, ?_⟩
  · simp [planar_audio_buffer_valid_channels, planar_audio_buffer_valid_channels_loop]
  · simp [planar_audio_buffer_valid_channels_reads, planar_audio_buffer_valid_channels_loop]
  · simp [planar_audio_buffer_valid_channels, planar_audio_buffer_valid_channels_loop]
  · simp [planar_audio_buffer_valid_channels, planar_audio_buffer_valid_channels_loop]

/-- When every entry below `k ≤ maxChannels` is non-null, the count of non-null entries
among the first `maxChannels` is `k` plus the count among the entries from `k` on. -/
theorem count_non_null_split (buffers : List Ptr) (maxChannels k : Nat)
    (hk : k ≤ maxChannels) (hnn : ∀ i, i < k → non_null_at buffers i = true) :
    count_non_null buffers maxChannels
      = k + (List.range' k (maxChannels - k)).countP (non_null_at buffers) := by
  unfold count_non_null
  have hsplit : List.range maxChannels = List.range' 0 k ++ List.range' k (maxChannels - k) := by
    have h := List.range'_append_1 0 k (maxChannels - k)
    rw [Nat.zero_add] at h
    rw [h, List.range_eq_range']
    congr 1
    omega
  have hfirst : (List.range' 0 k).countP (non_null_at buffers) = k := by
    have h : (List.range' 0 k).countP (non_null_at buffers) = (List.range' 0 k).length :=
      List.countP_eq_length.2 (fun a ha => hnn a (by have := List.mem_range'_1.1 ha; omega))
    rw [h, List.length_range']
  rw [hsplit, List.countP_append, hfirst]

/-- C19: `planar_audio_buffer_valid_channels` is not a count of non-null entries: over
every array with at least `maxChannels` entries its result is at most the number of
non-null entries among the first `maxChannels`, and equals that number exactly when the
non-null entries form a prefix of the array; for `[p0, p1, null, p3]` with
`maxChannels = 4` the result 2 is strictly smaller than the count 3. -/
theorem planar_audio_buffer_valid_channels_le_count :
    (∀ (buffers : List Ptr) (maxChannels : Nat), maxChannels ≤ buffers.length →
        ∃ k, planar_audio_buffer_valid_channels buffers maxChannels = some k ∧
          k ≤ count_non_null buffers maxChannels ∧
          (k = count_non_null buffers maxChannels ↔
            NonNullFormPrefix buffers maxChannels)) ∧
      (planar_audio_buffer_valid_channels
          [Ptr.addr 10, Ptr.addr 20, Ptr.null, Ptr.addr 30] 4 = some 2 ∧
        count_non_null [Ptr.addr 10, Ptr.addr 20, Ptr.null, Ptr.addr 30] 4 = 3 ∧
        2 < 3) := by
  constructor
  · intro buffers maxChannels hlen
    obtain ⟨k, hk, _, hkm, hnn, hend⟩ :=
      planar_audio_buffer_valid_channels_returns buffers maxChannels hlen
    have hsplit := count_non_null_split buffers maxChannels k hkm hnn
    refine ⟨k, hk, by omega, ?_⟩
    have hzero : (k = count_non_null buffers maxChannels) ↔
        (List.range' k (maxChannels - k)).countP (non_null_at buffers) = 0 := by
      constructor <;> intro h <;> omega
    rw [hzero, List.countP_eq_zero]
    constructor
    · intro hrest i j hij hj hjn
      have hjk : j < k := by
        by_contra hcon
        exact hrest j (List.mem_range'_1.2 (by omega)) hjn
      exact hnn i (by omega)
    · intro hpre i hi hin
      have hi2 := List.mem_range'_1.1 hi
      rcases hend with h | h
      · omega
      · have hknull := non_null_at_of_null h
        rcases Nat.eq_or_lt_of_le hi2.1 with he | hl
        · rw [← he, hknull] at hin
          exact Bool.noConfusion hin
        · have := hpre k i hl (by omega) hin
          rw [hknull] at this
          exact Bool.noConfusion this
  · refine ⟨?_, ?_, by decide⟩
    · simp [planar_audio_buffer_valid_channels, planar_audio_buffer_valid_channels_loop]
    · decide

/-- Witness for C19: over `[p0, p1, p2]` with `maxChannels = 3` the non-null entries form
a prefix and the result equals the count, 3. -/
theorem planar_audio_buffer_valid_channels_le_count_witness :
    3 ≤ [Ptr.addr 10, Ptr.addr 20, Ptr.addr 30].length ∧
      (∃ k, planar_audio_buffer_valid_channels [Ptr.addr 10, Ptr.addr 20, Ptr.addr 30] 3
            = some k ∧
          k ≤ count_non_null [Ptr.addr 10, Ptr.addr 20, Ptr.addr 30] 3 ∧
          (k = count_non_null [Ptr.addr 10, Ptr.addr 20, Ptr.addr 30] 3 ↔
            NonNullFormPrefix [Ptr.addr 10, Ptr.addr 20, Ptr.addr 30] 3)) ∧
      count_non_null [Ptr.addr 10, Ptr.addr 20, Ptr.addr 30] 3 = 3 :=
  ⟨by decide,
    planar_audio_buffer_valid_channels_le_count.1 [Ptr.addr 10, Ptr.addr 20, Ptr.addr 30] 3
      (by decide),
    by decide⟩

/-! ## `make_audio_buffer_with_offset` -/

/-- C20: `make_audio_buffer_with_offset(buf, numFrames)` passes its assertion exactly
when `numFrames <= buf.size_frames()`; in that case it returns the adapter
`audio_buffer_with_offset(buf, numFrames)` (same wrapped view, same offset), whose
`size_frames()` is `buf.size_frames() - numFrames` (the frame count being a
`std::size_t` value); with `numFrames > buf.size_frames()` the assertion is violated. -/
theorem make_audio_buffer_with_offset_spec {B : Type} [AudioBufferView B] (w : Nat)
    (buf : B) (numFrames : Nat) :
    (MPT_ASSERT (decide (numFrames ≤ AudioBufferView.size_frames w buf)) = Except.ok () ↔
        numFrames ≤ AudioBufferView.size_frames w buf) ∧
      ((∃ r, make_audio_buffer_with_offset w buf numFrames = Except.ok r) ↔
        numFrames ≤ AudioBufferView.size_frames w buf) ∧
      (numFrames ≤ AudioBufferView.size_frames w buf →
        make_audio_buffer_with_offset w buf numFrames
            = Except.ok (audio_buffer_with_offset.mk buf numFrames) ∧
          (audio_buffer_with_offset.mk buf numFrames).m_buffer = buf ∧
          (audio_buffer_with_offset.mk buf numFrames).m_offset = numFrames ∧
          (AudioBufferView.size_frames w buf < 2 ^ w →
            (audio_buffer_with_offset.mk buf numFrames).size_frames w
              = AudioBufferView.size_frames w buf - numFrames)) ∧
      (AudioBufferView.size_frames w buf < numFrames →
        make_audio_buffer_with_offset w buf numFrames
          = Except.error AssertionViolation.assertion_violated) := by
  by_cases h : numFrames ≤ AudioBufferView.size_frames w buf
  · have hm : make_audio_buffer_with_offset w buf numFrames
        = Except.ok (audio_buffer_with_offset.mk buf numFrames) := by
      simp [make_audio_buffer_with_offset, MPT_ASSERT, h, Except.bind]
    refine ⟨?_, ?_, fun _ => ⟨hm, rfl, rfl, fun hF => size_sub_of_le hF h⟩,
      fun hgt => absurd h (by omega)⟩
    · simp [MPT_ASSERT, h]
    · exact ⟨fun _ => h, fun _ => ⟨_, hm⟩⟩
  · have hm : make_audio_buffer_with_offset w buf numFrames
        = Except.error AssertionViolation.assertion_violated := by
      simp [make_audio_buffer_with_offset, MPT_ASSERT, h, Except.bind]
    refine ⟨?_, ?_, fun hle => absurd hle h, fun _ => hm⟩
    · simp [MPT_ASSERT, h]
    · constructor
      · rintro ⟨r, hr⟩
        rw [hm] at hr
        exact Except.noConfusion hr
      · intro hle
        exact absurd hle h

/-- Witness for C20: an interleaved view of two channels and four frames on a 64-bit
platform; offset 3 is accepted and leaves one frame, offset 5 violates the assertion. -/
theorem make_audio_buffer_with_offset_spec_witness :
    (3 ≤ 4 ∧ 4 < 5) ∧
      make_audio_buffer_with_offset 64 (audio_buffer_interleaved.mk (Ptr.addr 1000) 2 4) 3
        = Except.ok (audio_buffer_with_offset.mk
            (audio_buffer_interleaved.mk (Ptr.addr 1000) 2 4) 3) ∧
      make_audio_buffer_with_offset 64 (audio_buffer_interleaved.mk (Ptr.addr 1000) 2 4) 5
        = Except.error AssertionViolation.assertion_violated :=
  ⟨⟨by decide, by decide⟩,
    ((make_audio_buffer_with_offset_spec 64
      (audio_buffer_interleaved.mk (Ptr.addr 1000) 2 4) 3).2.2.1
        (show 3 ≤ 4 by decide)).1,
    (make_audio_buffer_with_offset_spec 64
      (audio_buffer_interleaved.mk (Ptr.addr 1000) 2 4) 5).2.2.2
        (show 4 < 5 by decide)⟩

/-! ## Constant contiguity of the three concrete layouts -/

/-- C21: the three concrete layouts report contiguity as constants, whatever the channel
count, frame count and storage are: `audio_buffer_interleaved` reports
(`is_contiguous`, `channels_are_contiguous`, `frames_are_contiguous`) = (true, false,
true) and `data()` equal to its buffer, `audio_buffer_contiguous` reports (true, true,
false) and `data()` equal to its buffer, and `audio_buffer_planar` reports (false,
false, false). -/
theorem concrete_layouts_contiguity_constants :
    (∀ (buffer : Ptr) (C F : Nat),
        (audio_buffer_interleaved.mk buffer C F).is_contiguous = true ∧
        (audio_buffer_interleaved.mk buffer C F).channels_are_contiguous = false ∧
        (audio_buffer_interleaved.mk buffer C F).frames_are_contiguous = true ∧
        (audio_buffer_interleaved.mk buffer C F).data = some buffer ∧
        (audio_buffer_interleaved.mk buffer C F).data_const = some buffer) ∧
      (∀ (buffer : Ptr) (C F : Nat),
        (audio_buffer_contiguous.mk buffer C F).is_contiguous = true ∧
        (audio_buffer_contiguous.mk buffer C F).channels_are_contiguous = true ∧
        (audio_buffer_contiguous.mk buffer C F).frames_are_contiguous = false ∧
        (audio_buffer_contiguous.mk buffer C F).data = some buffer ∧
        (audio_buffer_contiguous.mk buffer C F).data_const = some buffer) ∧
      (∀ (buffers : List Ptr) (C F : Nat),
        (audio_buffer_planar.mk buffers C F).is_contiguous = false ∧
        (audio_buffer_planar.mk buffers C F).channels_are_contiguous = false ∧
        (audio_buffer_planar.mk buffers C F).frames_are_contiguous = false) :=
  ⟨fun _ _ _ => ⟨rfl, rfl, rfl, rfl, rfl⟩, fun _ _ _ => ⟨rfl, rfl, rfl, rfl, rfl⟩,
    fun _ _ _ => ⟨rfl, rfl, rfl⟩⟩

/-! ## The unchecked constructor of the offset adapter -/

/-- C22 (counterexample): the constructor of `audio_buffer_with_offset` accepts offset 5
over an interleaved view of two channels and four frames; on a 64-bit platform the
adapter it builds has `size_frames()` equal to `2 ^ 64 - 1`, which exceeds the four
frames of the wrapped view. -/
theorem audio_buffer_with_offset_constructor_counterexample :
    (audio_buffer_interleaved.mk (Ptr.addr 1000) 2 4).size_frames
        < (audio_buffer_with_offset.mk (audio_buffer_interleaved.mk (Ptr.addr 1000) 2 4)
            5).m_offset ∧
      (audio_buffer_with_offset.mk (audio_buffer_interleaved.mk (Ptr.addr 1000) 2 4)
          5).size_frames 64 = 2 ^ 64 - 1 ∧
      (audio_buffer_interleaved.mk (Ptr.addr 1000) 2 4).size_frames
        < (audio_buffer_with_offset.mk (audio_buffer_interleaved.mk (Ptr.addr 1000) 2 4)
            5).size_frames 64 := by
  refine ⟨by decide, by decide, ?_⟩
  have h : (audio_buffer_with_offset.mk (audio_buffer_interleaved.mk (Ptr.addr 1000) 2 4)
      5).size_frames 64 = 2 ^ 64 - 1 := by decide
  rw [h]
  show 4 < 2 ^ 64 - 1
  norm_num

/-- Subtracting a larger `std::size_t` value wraps around: for `a < n < 2 ^ w` the
difference is `2 ^ w + a - n`. -/
theorem size_sub_of_lt {w a n : Nat} (hn : n < 2 ^ w) (han : a < n) :
    size_sub w a n = 2 ^ w + a - n := by
  unfold size_sub
  have hn2 : n % 2 ^ w = n := Nat.mod_eq_of_lt hn
  rw [hn2]
  have h : a + (2 ^ w - n) = 2 ^ w + a - n := by omega
  rw [h]
  exact Nat.mod_eq_of_lt (by omega)

/-- C22 (amended): the constructor of `audio_buffer_with_offset` does not check its
precondition: for every view `V` (of any view type) and every offset it builds the
adapter holding that view and that offset. With frame count and offset `std::size_t`
values, an offset of at most `V.size_frames()` gives an adapter whose `size_frames()` is
`V.size_frames() - offset`, not exceeding `V.size_frames()`; an offset greater than
`V.size_frames()` gives an adapter whose `size_frames()` wraps around to
`2 ^ w + V.size_frames() - offset` and exceeds `V.size_frames()`. -/
theorem audio_buffer_with_offset_constructor_unchecked {B : Type} [AudioBufferView B]
    (w : Nat) (V : B) (n : Nat) (hF : AudioBufferView.size_frames w V < 2 ^ w)
    (hn : n < 2 ^ w) :
    ((audio_buffer_with_offset.mk V n).m_buffer = V ∧
        (audio_buffer_with_offset.mk V n).m_offset = n) ∧
      (n ≤ AudioBufferView.size_frames w V →
        (audio_buffer_with_offset.mk V n).size_frames w
            = AudioBufferView.size_frames w V - n ∧
          (audio_buffer_with_offset.mk V n).size_frames w
            ≤ AudioBufferView.size_frames w V) ∧
      (AudioBufferView.size_frames w V < n →
        (audio_buffer_with_offset.mk V n).size_frames w
            = 2 ^ w + AudioBufferView.size_frames w V - n ∧
          AudioBufferView.size_frames w V
            < (audio_buffer_with_offset.mk V n).size_frames w) := by
  refine ⟨⟨rfl, rfl⟩, ?_, ?_⟩
  · intro hle
    have hs : (audio_buffer_with_offset.mk V n).size_frames w
        = AudioBufferView.size_frames w V - n := size_sub_of_le hF hle
    rw [hs]
    exact ⟨rfl, Nat.sub_le _ _⟩
  · intro hlt
    have hs : (audio_buffer_with_offset.mk V n).size_frames w
        = 2 ^ w + AudioBufferView.size_frames w V - n := size_sub_of_lt hn hlt
    rw [hs]
    exact ⟨rfl, by omega⟩

/-- Witness for C22 (amended): an interleaved view of two channels and four frames on a
64-bit platform; offset 3 leaves one frame, offset 5 is stored as well and the adapter
then reports `2 ^ 64 + 4 - 5` frames. -/
theorem audio_buffer_with_offset_constructor_unchecked_witness :
    ((4 : Nat) < 2 ^ 64 ∧ (5 : Nat) < 2 ^ 64 ∧ 4 < 5 ∧ (3 : Nat) < 2 ^ 64 ∧ 3 ≤ 4) ∧
      (audio_buffer_with_offset.mk (audio_buffer_interleaved.mk (Ptr.addr 1000) 2 4)
          5).size_frames 64 = 2 ^ 64 + 4 - 5 ∧
      (audio_buffer_with_offset.mk (audio_buffer_interleaved.mk (Ptr.addr 1000) 2 4)
          3).size_frames 64 = 4 - 3 :=
  ⟨⟨by norm_num, by norm_num, by decide, by norm_num, by decide⟩,
    ((audio_buffer_with_offset_constructor_unchecked 64
      (audio_buffer_interleaved.mk (Ptr.addr 1000) 2 4) 5
      (show (4 : Nat) < 2 ^ 64 by norm_num) (by norm_num)).2.2
        (show 4 < 5 by decide)).1,
    ((audio_buffer_with_offset_constructor_unchecked 64
      (audio_buffer_interleaved.mk (Ptr.addr 1000) 2 4) 3
      (show (4 : Nat) < 2 ^ 64 by norm_num) (by norm_num)).2.1
        (show 3 ≤ 4 by decide)).1⟩

/-! ## In-bounds access and absence of aliasing -/

/-- Reading cell `base + i` of the memory holding `xs` from `base` succeeds when
`i < xs.length`. -/
theorem load_ofList_of_lt {α : Type} (base i : Nat) (xs : List α) (hi : i < xs.length) :
    load (Memory.ofList base xs) (some (base + i)) = some (xs.get ⟨i, hi⟩) := by
  show (if base ≤ base + i then xs[base + i - base]? else none) = _
  rw [if_pos (Nat.le_add_right _ _), Nat.add_sub_cancel_left]
  exact List.getElem?_eq_getElem hi

/-- C23: for `audio_buffer_interleaved` and `audio_buffer_contiguous` with `C` channels
and `F` frames (the `C * F` samples fit the address space), every valid pair `(c, f)`
is mapped to a storage index strictly below `C * F`, which is `size_samples()`
(`f * C + c` resp. `c * F + f`); so over any buffer of `size_samples()` elements the
access made by `operator()` (both overloads) is in range: the checked read of the cell
succeeds. -/
theorem concrete_layouts_in_bounds {α : Type} (w b C F c f : Nat) (hc : c < C)
    (hf : f < F) (hfit : C * F < 2 ^ w) :
    (f * C + c < C * F ∧ c * F + f < C * F) ∧
      ((audio_buffer_interleaved.mk (Ptr.addr b) C F).size_samples w = C * F ∧
        (audio_buffer_contiguous.mk (Ptr.addr b) C F).size_samples w = C * F) ∧
      (∀ xs : List α,
        xs.length = (audio_buffer_interleaved.mk (Ptr.addr b) C F).size_samples w →
        (load (Memory.ofList b xs)
            ((audio_buffer_interleaved.mk (Ptr.addr b) C F).operator_call w c f)).isSome
          = true ∧
        (load (Memory.ofList b xs)
            ((audio_buffer_interleaved.mk (Ptr.addr b) C F).operator_call_const w c f)).isSome
          = true) ∧
      (∀ xs : List α,
        xs.length = (audio_buffer_contiguous.mk (Ptr.addr b) C F).size_samples w →
        (load (Memory.ofList b xs)
            ((audio_buffer_contiguous.mk (Ptr.addr b) C F).operator_call w c f)).isSome
          = true ∧
        (load (Memory.ofList b xs)
            ((audio_buffer_contiguous.mk (Ptr.addr b) C F).operator_call_const w c f)).isSome
          = true) := by
  have hI : f * C + c < C * F := index_lt_of_valid hc hf
  have hC0 : c * F + f < F * C := index_lt_of_valid hf hc
  have hFC : F * C = C * F := Nat.mul_comm F C
  have hC : c * F + f < C * F := by omega
  have hsI : (audio_buffer_interleaved.mk (Ptr.addr b) C F).size_samples w = C * F :=
    size_mul_of_lt hfit
  have hsC : (audio_buffer_contiguous.mk (Ptr.addr b) C F).size_samples w = C * F :=
    size_mul_of_lt hfit
  refine ⟨⟨hI, hC⟩, ⟨hsI, hsC⟩, ?_, ?_⟩
  · intro xs hlen
    rw [hsI] at hlen
    have e := interleaved_refers w (Ptr.addr b) C F c f hc hf hfit
    rw [e.1, e.2]
    have hl := load_ofList_of_lt b (f * C + c) xs (by omega)
    have hl2 : load (Memory.ofList b xs) ((Ptr.addr b).subscript (f * C + c))
        = some (xs.get ⟨f * C + c, by omega⟩) := hl
    rw [hl2]
    exact ⟨rfl, rfl⟩
  · intro xs hlen
    rw [hsC] at hlen
    have e := contiguous_refers w (Ptr.addr b) C F c f hc hf hfit
    rw [e.1, e.2]
    have hl := load_ofList_of_lt b (c * F + f) xs (by omega)
    have hl2 : load (Memory.ofList b xs) ((Ptr.addr b).subscript (c * F + f))
        = some (xs.get ⟨c * F + f, by omega⟩) := hl
    rw [hl2]
    exact ⟨rfl, rfl⟩

/-- Witness for C23: two channels, four frames on a 64-bit platform, pair `(1, 3)`:
the interleaved index 7 and the channel-contiguous index 7 are below 8. -/
theorem concrete_layouts_in_bounds_witness :
    (1 < 2 ∧ 3 < 4 ∧ 2 * 4 < 2 ^ 64) ∧ (3 * 2 + 1 < 2 * 4 ∧ 1 * 4 + 3 < 2 * 4) ∧
      (load (Memory.ofList 1000 [10, 11, 12, 13, 14, 15, 16, 17])
        ((audio_buffer_interleaved.mk (Ptr.addr 1000) 2 4).operator_call 64 1 3)).isSome
        = true :=
  ⟨⟨by decide, by decide, by norm_num⟩,
    (concrete_layouts_in_bounds (α := Nat) 64 1000 2 4 1 3 (by decide) (by decide)
      (by norm_num)).1,
    ((concrete_layouts_in_bounds (α := Nat) 64 1000 2 4 1 3 (by decide) (by decide)
      (by norm_num)).2.2.1 [10, 11, 12, 13, 14, 15, 16, 17] (by decide)).1⟩

/-- Writing `v` to an allocated cell `a` succeeds; afterwards cell `a` reads `v` and
every other cell reads what it read before. -/
theorem store_then_load {α : Type} (mem : Memory α) (a : Nat) (v : α)
    (h : (load mem (some a)).isSome = true) :
    store mem (some a) v = some (Function.update mem a (some v)) ∧
      load (Function.update mem a (some v)) (some a) = some v ∧
      ∀ a', a' ≠ a → load (Function.update mem a (some v)) (some a') = load mem (some a') := by
  have h2 : (mem a).isSome = true := h
  refine ⟨?_, ?_, ?_⟩
  · show (if (mem a).isSome then some (Function.update mem a (some v)) else none) = _
    rw [if_pos h2]
  · show Function.update mem a (some v) a = some v
    exact Function.update_same a (some v) mem
  · intro a' hne
    show Function.update mem a (some v) a' = mem a'
    exact Function.update_noteq hne (some v) mem

/-- C24: for `audio_buffer_interleaved` and `audio_buffer_contiguous` over a buffer at
address `b` with `C` channels and `F` frames (fitting the address space), two distinct
valid pairs are mapped to distinct storage cells; hence writing `v` through
`operator()(c, f)` into an allocated cell succeeds, a subsequent read of `(c, f)`
returns `v`, and the read at every other valid pair `(c2, f2)` is unchanged. -/
theorem concrete_layouts_no_aliasing {α : Type} (w b C F c f c2 f2 : Nat)
    (mem : Memory α) (v : α) (hc : c < C) (hf : f < F) (hc2 : c2 < C) (hf2 : f2 < F)
    (hfit : C * F < 2 ^ w) (hne : (c, f) ≠ (c2, f2)) :
    ((audio_buffer_interleaved.mk (Ptr.addr b) C F).operator_call w c f
          ≠ (audio_buffer_interleaved.mk (Ptr.addr b) C F).operator_call w c2 f2 ∧
        ((load mem ((audio_buffer_interleaved.mk (Ptr.addr b) C F).operator_call w c f)).isSome
            = true →
          ∃ mem2,
            store mem ((audio_buffer_interleaved.mk (Ptr.addr b) C F).operator_call w c f) v
                = some mem2 ∧
              load mem2 ((audio_buffer_interleaved.mk (Ptr.addr b) C F).operator_call_const
                w c f) = some v ∧
              load mem2 ((audio_buffer_interleaved.mk (Ptr.addr b) C F).operator_call_const
                  w c2 f2)
                = load mem ((audio_buffer_interleaved.mk (Ptr.addr b) C F).operator_call_const
                  w c2 f2))) ∧
      ((audio_buffer_contiguous.mk (Ptr.addr b) C F).operator_call w c f
          ≠ (audio_buffer_contiguous.mk (Ptr.addr b) C F).operator_call w c2 f2 ∧
        ((load mem ((audio_buffer_contiguous.mk (Ptr.addr b) C F).operator_call w c f)).isSome
            = true →
          ∃ mem2,
            store mem ((audio_buffer_contiguous.mk (Ptr.addr b) C F).operator_call w c f) v
                = some mem2 ∧
              load mem2 ((audio_buffer_contiguous.mk (Ptr.addr b) C F).operator_call_const
                w c f) = some v ∧
              load mem2 ((audio_buffer_contiguous.mk (Ptr.addr b) C F).operator_call_const
                  w c2 f2)
                = load mem ((audio_buffer_contiguous.mk (Ptr.addr b) C F).operator_call_const
                  w c2 f2))) := by
  have eI := interleaved_refers w (Ptr.addr b) C F c f hc hf hfit
  have eI2 := interleaved_refers w (Ptr.addr b) C F c2 f2 hc2 hf2 hfit
  have eC := contiguous_refers w (Ptr.addr b) C F c f hc hf hfit
  have eC2 := contiguous_refers w (Ptr.addr b) C F c2 f2 hc2 hf2 hfit
  have hIne : b + (f2 * C + c2) ≠ b + (f * C + c) := by
    intro h
    have h2 : f * C + c = f2 * C + c2 := by omega
    obtain ⟨e1, e2⟩ := row_major_inj hc hc2 h2
    exact hne (by rw [e1, e2])
  have hCne : b + (c2 * F + f2) ≠ b + (c * F + f) := by
    intro h
    have h2 : c * F + f = c2 * F + f2 := by omega
    obtain ⟨e1, e2⟩ := row_major_inj hf hf2 h2
    exact hne (by rw [e1, e2])
  constructor
  · rw [eI.1, eI.2, eI2.1, eI2.2]
    refine ⟨?_, ?_⟩
    · intro h
      exact hIne (Option.some.inj h).symm
    · intro hal
      obtain ⟨h1, h2, h3⟩ := store_then_load mem (b + (f * C + c)) v hal
      exact ⟨_, h1, h2, h3 _ hIne⟩
  · rw [eC.1, eC.2, eC2.1, eC2.2]
    refine ⟨?_, ?_⟩
    · intro h
      exact hCne (Option.some.inj h).symm
    · intro hal
      obtain ⟨h1, h2, h3⟩ := store_then_load mem (b + (c * F + f)) v hal
      exact ⟨_, h1, h2, h3 _ hCne⟩

/-- Witness for C24: two channels, four frames at address 1000 on a 64-bit platform; the
interleaved cells of `(1, 2)` and `(0, 3)` are distinct, and writing 99 at `(1, 2)`
leaves the read at `(0, 3)` unchanged. -/
theorem concrete_layouts_no_aliasing_witness :
    (1 < 2 ∧ 2 < 4 ∧ 0 < 2 ∧ 3 < 4 ∧ 2 * 4 < 2 ^ 64 ∧ ((1, 2) : Nat × Nat) ≠ (0, 3)) ∧
      (audio_buffer_interleaved.mk (Ptr.addr 1000) 2 4).operator_call 64 1 2
        ≠ (audio_buffer_interleaved.mk (Ptr.addr 1000) 2 4).operator_call 64 0 3 ∧
      (∃ mem2,
        store (Memory.ofList 1000 [10, 11, 12, 13, 14, 15, 16, 17])
            ((audio_buffer_interleaved.mk (Ptr.addr 1000) 2 4).operator_call 64 1 2) 99
            = some mem2 ∧
          load mem2 ((audio_buffer_interleaved.mk (Ptr.addr 1000) 2 4).operator_call_const
            64 1 2) = some 99 ∧
          load mem2 ((audio_buffer_interleaved.mk (Ptr.addr 1000) 2 4).operator_call_const
              64 0 3)
            = load (Memory.ofList 1000 [10, 11, 12, 13, 14, 15, 16, 17])
              ((audio_buffer_interleaved.mk (Ptr.addr 1000) 2 4).operator_call_const
                64 0 3)) :=
  ⟨⟨by decide, by decide, by decide, by decide, by norm_num, by decide⟩,
    (concrete_layouts_no_aliasing 64 1000 2 4 1 2 0 3
      (Memory.ofList 1000 [10, 11, 12, 13, 14, 15, 16, 17]) 99
      (by decide) (by decide) (by decide) (by decide) (by norm_num) (by decide)).1.1,
    (concrete_layouts_no_aliasing 64 1000 2 4 1 2 0 3
      (Memory.ofList 1000 [10, 11, 12, 13, 14, 15, 16, 17]) 99
      (by decide) (by decide) (by decide) (by decide) (by norm_num) (by decide)).1.2
        (by decide)⟩

/-! ## Validity of forwarded accesses and composition of offsets -/

/-- C26: for every view `V` (of any view type) whose frame count is a `std::size_t` value
and every offset `n ≤ V.size_frames()` (the offsets `make_audio_buffer_with_offset`
accepts), every pair `(c, f)` valid for the adapter is forwarded by both overloads of
`operator()` to the pair `(c, n + f)`, which is valid for `V`: `c < V.size_channels()`
and `n + f < V.size_frames()`, the sum `n + f` not wrapping. -/
theorem audio_buffer_with_offset_forwards_valid {B : Type} [AudioBufferView B] (w : Nat)
    (V : B) (n c f : Nat) (hF : AudioBufferView.size_frames w V < 2 ^ w)
    (hn : n ≤ AudioBufferView.size_frames w V)
    (hc : c < (audio_buffer_with_offset.mk V n).size_channels)
    (hf : f < (audio_buffer_with_offset.mk V n).size_frames w) :
    make_audio_buffer_with_offset w V n = Except.ok (audio_buffer_with_offset.mk V n) ∧
      c < AudioBufferView.size_channels V ∧
      n + f < AudioBufferView.size_frames w V ∧
      n + f < 2 ^ w ∧
      (audio_buffer_with_offset.mk V n).operator_call w c f
        = AudioBufferView.operator_call w V c (n + f) ∧
      (audio_buffer_with_offset.mk V n).operator_call_const w c f
        = AudioBufferView.operator_call_const w V c (n + f) := by
  have hs : (audio_buffer_with_offset.mk V n).size_frames w
      = AudioBufferView.size_frames w V - n := size_sub_of_le hF hn
  rw [hs] at hf
  have hsum : n + f < AudioBufferView.size_frames w V := by omega
  have e : size_add w n f = n + f := size_add_of_lt (by omega)
  refine ⟨?_, hc, hsum, by omega, ?_, ?_⟩
  · simp [make_audio_buffer_with_offset, MPT_ASSERT, hn, Except.bind]
  · show AudioBufferView.operator_call w V c (size_add w n f) = _
    rw [e]
  · show AudioBufferView.operator_call_const w V c (size_add w n f) = _
    rw [e]

/-- Witness for C26: an interleaved view of two channels and four frames on a 64-bit
platform with offset 1; the adapter's pair `(1, 2)` is forwarded to `(1, 3)`, valid for
the view. -/
theorem audio_buffer_with_offset_forwards_valid_witness :
    ((4 : Nat) < 2 ^ 64 ∧ 1 ≤ 4 ∧ 1 < 2 ∧ 2 < 3) ∧ (1 < 2 ∧ 1 + 2 < 4) :=
  ⟨⟨by norm_num, by decide, by decide, by decide⟩,
    (audio_buffer_with_offset_forwards_valid 64
      (audio_buffer_interleaved.mk (Ptr.addr 1000) 2 4) 1 1 2
      (show (4 : Nat) < 2 ^ 64 by norm_num) (show 1 ≤ 4 by decide)
      (show 1 < 2 by decide) (show 2 < 3 by decide)).2.1,
    (audio_buffer_with_offset_forwards_valid 64
      (audio_buffer_interleaved.mk (Ptr.addr 1000) 2 4) 1 1 2
      (show (4 : Nat) < 2 ^ 64 by norm_num) (show 1 ≤ 4 by decide)
      (show 1 < 2 by decide) (show 2 < 3 by decide)).2.2.1⟩

/-- Advancing a pointer twice advances it by the sum. -/
theorem ptr_add_add (p : Ptr) (j k : Nat) :
    (p.add j).bind (fun q => q.add k) = p.add (j + k) := by
  cases p with
  | null =>
    cases j with
    | zero =>
      cases k with
      | zero => rfl
      | succ k =>
        show (none : Option Ptr) = Ptr.add Ptr.null (0 + (k + 1))
        rw [Nat.zero_add]
        rfl
    | succ j =>
      show (none : Option Ptr) = Ptr.add Ptr.null (j + 1 + k)
      have h : j + 1 + k = (j + k) + 1 := by omega
      rw [h]
      rfl
  | addr a =>
    show some (Ptr.addr (a + j + k)) = some (Ptr.addr (a + (j + k)))
    rw [Nat.add_assoc]

/-- The `data()` of a contiguous adapter is the wrapped `data()` advanced by
`size_channels() * m_offset`. -/
theorem offset_data_of_contiguous {B : Type} [AudioBufferView B] (w : Nat)
    (A : audio_buffer_with_offset B) (h : A.is_contiguous = true) :
    A.data w = (AudioBufferView.data w A.m_buffer).bind
        (fun p => p.add (size_mul w A.size_channels A.m_offset)) ∧
      A.data_const w = (AudioBufferView.data_const w A.m_buffer).bind
        (fun p => p.add (size_mul w A.size_channels A.m_offset)) := by
  unfold audio_buffer_with_offset.data audio_buffer_with_offset.data_const
  rw [h]
  exact ⟨rfl, rfl⟩

/-- The `data()` of a non-contiguous adapter is the null marker. -/
theorem offset_data_of_not_contiguous {B : Type} [AudioBufferView B] (w : Nat)
    (A : audio_buffer_with_offset B) (h : A.is_contiguous = false) :
    A.data w = some nullptr ∧ A.data_const w = some nullptr := by
  unfold audio_buffer_with_offset.data audio_buffer_with_offset.data_const
  rw [h]
  exact ⟨rfl, rfl⟩

/-- C25: offset adapters compose additively: for every view `V` (of any view type) whose
frame count is a `std::size_t` value and offsets `a`, `b` with
`a + b ≤ V.size_frames()`, the adapter at offset `b` over the adapter at offset `a` over
`V` and the adapter at offset `a + b` over `V` have the same `operator()(c, f)` for all
`(c, f)` (both overloads), the same `size_channels()`, `size_frames()` and
`size_samples()`, the same three contiguity predicates, and, the `C * F` samples of `V`
fitting the address space, the same `data()` (both overloads). -/
theorem audio_buffer_with_offset_compose {B : Type} [AudioBufferView B] (w : Nat) (V : B)
    (a b : Nat) (hF : AudioBufferView.size_frames w V < 2 ^ w)
    (hab : a + b ≤ AudioBufferView.size_frames w V) :
    (∀ c f,
        (audio_buffer_with_offset.mk (audio_buffer_with_offset.mk V a) b).operator_call w c f
            = (audio_buffer_with_offset.mk V (a + b)).operator_call w c f ∧
          (audio_buffer_with_offset.mk (audio_buffer_with_offset.mk V a) b).operator_call_const
              w c f
            = (audio_buffer_with_offset.mk V (a + b)).operator_call_const w c f) ∧
      (audio_buffer_with_offset.mk (audio_buffer_with_offset.mk V a) b).size_channels
        = (audio_buffer_with_offset.mk V (a + b)).size_channels ∧
      (audio_buffer_with_offset.mk (audio_buffer_with_offset.mk V a) b).size_frames w
        = (audio_buffer_with_offset.mk V (a + b)).size_frames w ∧
      (audio_buffer_with_offset.mk (audio_buffer_with_offset.mk V a) b).size_samples w
        = (audio_buffer_with_offset.mk V (a + b)).size_samples w ∧
      (audio_buffer_with_offset.mk (audio_buffer_with_offset.mk V a) b).is_contiguous
        = (audio_buffer_with_offset.mk V (a + b)).is_contiguous ∧
      (audio_buffer_with_offset.mk (audio_buffer_with_offset.mk V a) b).channels_are_contiguous
        = (audio_buffer_with_offset.mk V (a + b)).channels_are_contiguous ∧
      (audio_buffer_with_offset.mk (audio_buffer_with_offset.mk V a) b).frames_are_contiguous
        = (audio_buffer_with_offset.mk V (a + b)).frames_are_contiguous ∧
      (AudioBufferView.size_channels V * AudioBufferView.size_frames w V < 2 ^ w →
        (audio_buffer_with_offset.mk (audio_buffer_with_offset.mk V a) b).data w
            = (audio_buffer_with_offset.mk V (a + b)).data w ∧
          (audio_buffer_with_offset.mk (audio_buffer_with_offset.mk V a) b).data_const w
            = (audio_buffer_with_offset.mk V (a + b)).data_const w) := by
  have hsum : ∀ f, size_add w a (size_add w b f) = size_add w (a + b) f := by
    intro f
    unfold size_add
    rw [Nat.add_mod_mod, Nat.add_assoc]
  have h1 : size_sub w (AudioBufferView.size_frames w V) a
      = AudioBufferView.size_frames w V - a := size_sub_of_le hF (by omega)
  have h2 : size_sub w (AudioBufferView.size_frames w V - a) b
      = AudioBufferView.size_frames w V - a - b := size_sub_of_le (by omega) (by omega)
  have h3 : size_sub w (AudioBufferView.size_frames w V) (a + b)
      = AudioBufferView.size_frames w V - (a + b) := size_sub_of_le hF hab
  have hframes : (audio_buffer_with_offset.mk (audio_buffer_with_offset.mk V a) b).size_frames w
      = (audio_buffer_with_offset.mk V (a + b)).size_frames w := by
    show size_sub w (size_sub w (AudioBufferView.size_frames w V) a) b
      = size_sub w (AudioBufferView.size_frames w V) (a + b)
    rw [h1, h2, h3]
    omega
  have hcont : (audio_buffer_with_offset.mk (audio_buffer_with_offset.mk V a) b).is_contiguous
      = (audio_buffer_with_offset.mk V (a + b)).is_contiguous := by
    show ((AudioBufferView.is_contiguous V && AudioBufferView.frames_are_contiguous V)
        && AudioBufferView.frames_are_contiguous V)
      = (AudioBufferView.is_contiguous V && AudioBufferView.frames_are_contiguous V)
    cases AudioBufferView.is_contiguous V <;>
      cases AudioBufferView.frames_are_contiguous V <;> rfl
  refine ⟨?_, rfl, hframes, ?_, hcont, rfl, rfl, ?_⟩
  · intro c f
    constructor
    · show AudioBufferView.operator_call w V c (size_add w a (size_add w b f))
        = AudioBufferView.operator_call w V c (size_add w (a + b) f)
      rw [hsum]
    · show AudioBufferView.operator_call_const w V c (size_add w a (size_add w b f))
        = AudioBufferView.operator_call_const w V c (size_add w (a + b) f)
      rw [hsum]
  · show size_mul w (AudioBufferView.size_channels V)
        ((audio_buffer_with_offset.mk (audio_buffer_with_offset.mk V a) b).size_frames w)
      = size_mul w (AudioBufferView.size_channels V)
        ((audio_buffer_with_offset.mk V (a + b)).size_frames w)
    rw [hframes]
  · intro hfit
    have hCab : AudioBufferView.size_channels V * (a + b)
        ≤ AudioBufferView.size_channels V * AudioBufferView.size_frames w V :=
      Nat.mul_le_mul_left _ hab
    have hCa : AudioBufferView.size_channels V * a
        ≤ AudioBufferView.size_channels V * (a + b) :=
      Nat.mul_le_mul_left _ (Nat.le_add_right a b)
    have hCb : AudioBufferView.size_channels V * b
        ≤ AudioBufferView.size_channels V * (a + b) :=
      Nat.mul_le_mul_left _ (Nat.le_add_left b a)
    have hdist : AudioBufferView.size_channels V * a + AudioBufferView.size_channels V * b
        = AudioBufferView.size_channels V * (a + b) := (Nat.mul_add _ a b).symm
    have ma : size_mul w (AudioBufferView.size_channels V) a
        = AudioBufferView.size_channels V * a := size_mul_of_lt (by omega)
    have mb : size_mul w (AudioBufferView.size_channels V) b
        = AudioBufferView.size_channels V * b := size_mul_of_lt (by omega)
    have mab : size_mul w (AudioBufferView.size_channels V) (a + b)
        = AudioBufferView.size_channels V * (a + b) := size_mul_of_lt (by omega)
    cases hb : (audio_buffer_with_offset.mk V (a + b)).is_contiguous
    · rw [hb] at hcont
      rw [(offset_data_of_not_contiguous w _ hcont).1,
        (offset_data_of_not_contiguous w _ hcont).2,
        (offset_data_of_not_contiguous w _ hb).1, (offset_data_of_not_contiguous w _ hb).2]
      exact ⟨rfl, rfl⟩
    · rw [hb] at hcont
      have hI : (audio_buffer_with_offset.mk V a).is_contiguous = true := hb
      have eN := offset_data_of_contiguous w
        (audio_buffer_with_offset.mk (audio_buffer_with_offset.mk V a) b) hcont
      have eI := offset_data_of_contiguous w (audio_buffer_with_offset.mk V a) hI
      have eS := offset_data_of_contiguous w (audio_buffer_with_offset.mk V (a + b)) hb
      have eN1 : (audio_buffer_with_offset.mk (audio_buffer_with_offset.mk V a) b).data w
          = ((audio_buffer_with_offset.mk V a).data w).bind
            (fun p => p.add (size_mul w (AudioBufferView.size_channels V) b)) := eN.1
      have eN2 : (audio_buffer_with_offset.mk (audio_buffer_with_offset.mk V a) b).data_const w
          = ((audio_buffer_with_offset.mk V a).data_const w).bind
            (fun p => p.add (size_mul w (AudioBufferView.size_channels V) b)) := eN.2
      have eI1 : (audio_buffer_with_offset.mk V a).data w
          = (AudioBufferView.data w V).bind
            (fun p => p.add (size_mul w (AudioBufferView.size_channels V) a)) := eI.1
      have eI2 : (audio_buffer_with_offset.mk V a).data_const w
          = (AudioBufferView.data_const w V).bind
            (fun p => p.add (size_mul w (AudioBufferView.size_channels V) a)) := eI.2
      have eS1 : (audio_buffer_with_offset.mk V (a + b)).data w
          = (AudioBufferView.data w V).bind
            (fun p => p.add (size_mul w (AudioBufferView.size_channels V) (a + b))) := eS.1
      have eS2 : (audio_buffer_with_offset.mk V (a + b)).data_const w
          = (AudioBufferView.data_const w V).bind
            (fun p => p.add (size_mul w (AudioBufferView.size_channels V) (a + b))) := eS.2
      rw [eN1, eN2, eI1, eI2, eS1, eS2, ma, mb, mab]
      constructor
      · cases AudioBufferView.data w V with
        | none => rfl
        | some p =>
          show (p.add _).bind (fun q => q.add _) = p.add _
          rw [ptr_add_add, hdist]
      · cases AudioBufferView.data_const w V with
        | none => rfl
        | some p =>
          show (p.add _).bind (fun q => q.add _) = p.add _
          rw [ptr_add_add, hdist]

/-- Witness for C25: an interleaved view of two channels and four frames at address 1000
on a 64-bit platform, offsets 1 and 2: both adapters have one frame left and `data()`
at address 1006. -/
theorem audio_buffer_with_offset_compose_witness :
    ((4 : Nat) < 2 ^ 64 ∧ 1 + 2 ≤ 4 ∧ 2 * 4 < 2 ^ 64) ∧
      (audio_buffer_with_offset.mk (audio_buffer_with_offset.mk
          (audio_buffer_interleaved.mk (Ptr.addr 1000) 2 4) 1) 2).size_frames 64
        = (audio_buffer_with_offset.mk
          (audio_buffer_interleaved.mk (Ptr.addr 1000) 2 4) (1 + 2)).size_frames 64 ∧
      (audio_buffer_with_offset.mk (audio_buffer_with_offset.mk
          (audio_buffer_interleaved.mk (Ptr.addr 1000) 2 4) 1) 2).data 64
        = (audio_buffer_with_offset.mk
          (audio_buffer_interleaved.mk (Ptr.addr 1000) 2 4) (1 + 2)).data 64 ∧
      (audio_buffer_with_offset.mk
        (audio_buffer_interleaved.mk (Ptr.addr 1000) 2 4) (1 + 2)).data 64
        = some (Ptr.addr 1006) :=
  ⟨⟨by norm_num, by decide, by norm_num⟩,
    (audio_buffer_with_offset_compose 64 (audio_buffer_interleaved.mk (Ptr.addr 1000) 2 4)
      1 2 (show (4 : Nat) < 2 ^ 64 by norm_num) (show 1 + 2 ≤ 4 by decide)).2.2.1,
    ((audio_buffer_with_offset_compose 64 (audio_buffer_interleaved.mk (Ptr.addr 1000) 2 4)
      1 2 (show (4 : Nat) < 2 ^ 64 by norm_num) (show 1 + 2 ≤ 4 by decide)).2.2.2.2.2.2.2
        (show 2 * 4 < 2 ^ 64 by norm_num)).1,
    by decide⟩

/-! ## Version numbers: bytes of a `uint32` -/

/-- Masking a `uint32` with `0xFFFFFF00` clears its low byte. -/
theorem and_high_mask (v : Nat) (hv : v < 2 ^ 32) : v &&& 0xFFFFFF00 = v / 256 * 256 := by
  have hm : (0xFFFFFF00 : Nat) = (2 ^ 24 - 1) <<< 8 := by decide
  have hr : v / 256 * 256 = (v >>> 8) <<< 8 := by
    rw [Nat.shiftLeft_eq, Nat.shiftRight_eq_div_pow]
  rw [hm, hr]
  apply Nat.eq_of_testBit_eq
  intro i
  rw [Nat.testBit_and, Nat.testBit_shiftLeft, Nat.testBit_shiftLeft, Nat.testBit_shiftRight,
    Nat.testBit_two_pow_sub_one]
  by_cases h8 : i ≥ 8
  · have e : 8 + (i - 8) = i := by omega
    rw [e]
    by_cases h32 : i < 32
    · have : i - 8 < 24 := by omega
      simp [h8, this]
    · have hlt : v < 2 ^ i := lt_of_lt_of_le hv (Nat.pow_le_pow_right (by decide) (by omega))
      rw [Nat.testBit_lt_two_pow hlt]
      simp
  · simp [h8]

/-- Masking with `0xFF` keeps the low byte. -/
theorem and_low_mask (v : Nat) : v &&& 0xFF = v % 256 :=
  Nat.and_pow_two_sub_one_eq_mod v 8

/-- Masking with `0xFFFF` keeps the low 16 bits. -/
theorem and_low16_mask (v : Nat) : v &&& 0xFFFF = v % 65536 :=
  Nat.and_pow_two_sub_one_eq_mod v 16

/-- The result of the parse loop over two numbers: the two bytes occupy disjoint bit
fields, so the bitwise ors add up. -/
theorem or_two_bytes (a b : Nat) (hb : b < 256) :
    (0 ||| (a <<< ((3 - 0) * 8))) ||| (b <<< ((3 - 1) * 8)) = a * 2 ^ 24 + b * 2 ^ 16 := by
  have h1 : a * 2 ^ 24 ||| b * 2 ^ 16 = a * 2 ^ 24 + b * 2 ^ 16 := by
    have h := Nat.mul_add_lt_is_or (i := 24) (b := b * 2 ^ 16) (by omega) a
    rw [Nat.mul_comm (2 ^ 24) a] at h
    exact h.symm
  have s0 : a <<< ((3 - 0) * 8) = a * 2 ^ 24 := Nat.shiftLeft_eq a 24
  have s1 : b <<< ((3 - 1) * 8) = b * 2 ^ 16 := Nat.shiftLeft_eq b 16
  rw [Nat.zero_or, s0, s1, h1]

/-- The result of the parse loop over four numbers: the four bytes occupy disjoint bit
fields, so the bitwise ors add up. -/
theorem or_four_bytes (a b c d : Nat) (hb : b < 256) (hc : c < 256) (hd : d < 256) :
    (((0 ||| (a <<< ((3 - 0) * 8))) ||| (b <<< ((3 - 1) * 8))) ||| (c <<< ((3 - 2) * 8)))
        ||| (d <<< ((3 - 3) * 8))
      = a * 2 ^ 24 + b * 2 ^ 16 + c * 2 ^ 8 + d := by
  have h2 : (a * 2 ^ 24 + b * 2 ^ 16) ||| c * 2 ^ 8
      = a * 2 ^ 24 + b * 2 ^ 16 + c * 2 ^ 8 := by
    have h := Nat.mul_add_lt_is_or (i := 16) (b := c * 2 ^ 8) (by omega) (a * 2 ^ 8 + b)
    have e : 2 ^ 16 * (a * 2 ^ 8 + b) = a * 2 ^ 24 + b * 2 ^ 16 := by ring
    rw [e] at h
    exact h.symm
  have h3 : (a * 2 ^ 24 + b * 2 ^ 16 + c * 2 ^ 8) ||| d
      = a * 2 ^ 24 + b * 2 ^ 16 + c * 2 ^ 8 + d := by
    have h := Nat.mul_add_lt_is_or (i := 8) (b := d) (by omega) (a * 2 ^ 16 + b * 2 ^ 8 + c)
    have e : 2 ^ 8 * (a * 2 ^ 16 + b * 2 ^ 8 + c) = a * 2 ^ 24 + b * 2 ^ 16 + c * 2 ^ 8 := by
      ring
    rw [e] at h
    exact h.symm
  have s2 : c <<< ((3 - 2) * 8) = c * 2 ^ 8 := Nat.shiftLeft_eq c 8
  have s3 : d <<< ((3 - 3) * 8) = d := by
    show d <<< 0 = d
    exact Nat.shiftLeft_zero
  rw [or_two_bytes a b hb, s2, s3, h2, h3]

/-! ## Version numbers: text -/

set_option maxRecDepth 100000 in
/-- Every byte printed by `HEX` or by `HEX0<2>` contains no `'.'` and is read back by
`Parse::Hex`. -/
theorem hex_byte_round_trip : ∀ b, b < 256 →
    ('.' ∉ mpt.fmt.HEX b ∧ mpt.String.Parse.Hex (mpt.fmt.HEX b) &&& 0xff = b) ∧
      ('.' ∉ mpt.fmt.HEX0 2 b ∧ mpt.String.Parse.Hex (mpt.fmt.HEX0 2 b) &&& 0xff = b) := by
  decide

/-- Splitting a text without separator gives the text itself. -/
theorem split_of_not_mem (sep : Char) (a : List Char) (h : sep ∉ a) :
    mpt.String.Split sep a = [a] := by
  induction a with
  | nil => rfl
  | cons c a ih =>
    have hc : c ≠ sep := fun e => h (e ▸ List.mem_cons_self c a)
    have ha : sep ∉ a := fun e => h (List.mem_cons_of_mem c e)
    unfold mpt.String.Split
    rw [if_neg hc, ih ha]

/-- Splitting at the first separator. -/
theorem split_append (sep : Char) (a rest : List Char) (h : sep ∉ a) :
    mpt.String.Split sep (a ++ sep :: rest) = a :: mpt.String.Split sep rest := by
  induction a with
  | nil =>
    show mpt.String.Split sep (sep :: rest) = _
    conv => lhs; unfold mpt.String.Split
    rw [if_pos rfl]
  | cons c a ih =>
    have hc : c ≠ sep := fun e => h (e ▸ List.mem_cons_self c a)
    have ha : sep ∉ a := fun e => h (List.mem_cons_of_mem c e)
    show mpt.String.Split sep (c :: (a ++ sep :: rest)) = _
    conv => lhs; unfold mpt.String.Split
    rw [if_neg hc, ih ha]

/-- The pattern `%1.%2` joins its two arguments with a dot. -/
theorem format_two (a b : List Char) :
    mpt.format "%1.%2".toList [a, b] = a ++ '.' :: b := by
  show a ++ '.' :: (b ++ []) = _
  rw [List.append_nil]

/-- The pattern `%1.%2.%3.%4` joins its four arguments with dots. -/
theorem format_four (a b c d : List Char) :
    mpt.format "%1.%2.%3.%4".toList [a, b, c, d]
      = a ++ '.' :: (b ++ '.' :: (c ++ '.' :: d)) := by
  show a ++ '.' :: (b ++ '.' :: (c ++ '.' :: (d ++ []))) = _
  rw [List.append_nil]

/-- The byte of a `uint32` at bit offset `k`, in arithmetic form. -/
theorem byte_at (v k : Nat) : (v >>> k) &&& 0xFF = v / 2 ^ k % 256 := by
  rw [and_low_mask, Nat.shiftRight_eq_div_pow]

/-- C27 (version text round trip): for every non-zero `uint32` value `v`,
`Version::Parse(Version(v).ToString())` has raw value `v`; when the low 16 bits of `v`
are zero the text is the two-component `M.mm`, otherwise the four-component
`M.mm.pp.tt` (with `HEX` printing upper-case hexadecimal without padding, `HEX0<2>`
padding to two digits, `Split` splitting at `'.'` and `Parse::Hex` reading a
hexadecimal number). -/
theorem version_text_round_trip (v : Nat) (hv : v < 2 ^ 32) (h0 : v ≠ 0) :
    (Version.Parse (Version.mk v).ToString).m_Version = v ∧
      (v &&& 0xFFFF = 0 →
        (Version.mk v).ToString
            = mpt.fmt.HEX ((v >>> 24) &&& 0xFF) ++ '.' :: mpt.fmt.HEX0 2 ((v >>> 16) &&& 0xFF) ∧
          (mpt.String.Split '.' (Version.mk v).ToString).length = 2) ∧
      (v &&& 0xFFFF ≠ 0 →
        (Version.mk v).ToString
            = mpt.fmt.HEX ((v >>> 24) &&& 0xFF) ++ '.' ::
              (mpt.fmt.HEX0 2 ((v >>> 16) &&& 0xFF) ++ '.' ::
                (mpt.fmt.HEX0 2 ((v >>> 8) &&& 0xFF) ++ '.' ::
                  mpt.fmt.HEX0 2 (v &&& 0xFF))) ∧
          (mpt.String.Split '.' (Version.mk v).ToString).length = 4) := by
  have e3 := byte_at v 24
  have e2 := byte_at v 16
  have e1 := byte_at v 8
  have e0 : v &&& 0xFF = v % 256 := and_low_mask v
  have l3 : (v >>> 24) &&& 0xFF < 256 := by rw [e3]; exact Nat.mod_lt _ (by decide)
  have l2 : (v >>> 16) &&& 0xFF < 256 := by rw [e2]; exact Nat.mod_lt _ (by decide)
  have l1 : (v >>> 8) &&& 0xFF < 256 := by rw [e1]; exact Nat.mod_lt _ (by decide)
  have l0 : v &&& 0xFF < 256 := by rw [e0]; exact Nat.mod_lt _ (by decide)
  have r3 := hex_byte_round_trip _ l3
  have r2 := hex_byte_round_trip _ l2
  have r1 := hex_byte_round_trip _ l1
  have r0 := hex_byte_round_trip _ l0
  have htwo : v &&& 0xFFFF = 0 →
      (Version.mk v).ToString
        = mpt.fmt.HEX ((v >>> 24) &&& 0xFF) ++ '.' :: mpt.fmt.HEX0 2 ((v >>> 16) &&& 0xFF) := by
    intro h
    unfold Version.ToString
    rw [if_neg h0, if_pos h, format_two]
  have hfour : v &&& 0xFFFF ≠ 0 →
      (Version.mk v).ToString
        = mpt.fmt.HEX ((v >>> 24) &&& 0xFF) ++ '.' ::
          (mpt.fmt.HEX0 2 ((v >>> 16) &&& 0xFF) ++ '.' ::
            (mpt.fmt.HEX0 2 ((v >>> 8) &&& 0xFF) ++ '.' ::
              mpt.fmt.HEX0 2 (v &&& 0xFF))) := by
    intro h
    unfold Version.ToString
    rw [if_neg h0, if_neg h, format_four]
  have stwo : v &&& 0xFFFF = 0 →
      mpt.String.Split '.' (Version.mk v).ToString
        = [mpt.fmt.HEX ((v >>> 24) &&& 0xFF), mpt.fmt.HEX0 2 ((v >>> 16) &&& 0xFF)] := by
    intro h
    rw [htwo h, split_append _ _ _ r3.1.1, split_of_not_mem _ _ r2.2.1]
  have sfour : v &&& 0xFFFF ≠ 0 →
      mpt.String.Split '.' (Version.mk v).ToString
        = [mpt.fmt.HEX ((v >>> 24) &&& 0xFF), mpt.fmt.HEX0 2 ((v >>> 16) &&& 0xFF),
            mpt.fmt.HEX0 2 ((v >>> 8) &&& 0xFF), mpt.fmt.HEX0 2 (v &&& 0xFF)] := by
    intro h
    rw [hfour h, split_append _ _ _ r3.1.1, split_append _ _ _ r2.2.1,
      split_append _ _ _ r1.2.1, split_of_not_mem _ _ r0.2.1]
  refine ⟨?_, fun h => ⟨htwo h, by rw [stwo h]; rfl⟩, fun h => ⟨hfour h, by rw [sfour h]; rfl⟩⟩
  by_cases h : v &&& 0xFFFF = 0
  · show Version.Parse_loop (mpt.String.Split '.' (Version.mk v).ToString) 0 0 = v
    rw [stwo h]
    show (0 ||| ((mpt.String.Parse.Hex (mpt.fmt.HEX ((v >>> 24) &&& 0xFF)) &&& 0xff)
          <<< ((3 - 0) * 8)))
        ||| ((mpt.String.Parse.Hex (mpt.fmt.HEX0 2 ((v >>> 16) &&& 0xFF)) &&& 0xff)
          <<< ((3 - 1) * 8)) = v
    rw [r3.1.2, r2.2.2, or_two_bytes _ _ l2, e3, e2]
    rw [and_low16_mask] at h
    omega
  · show Version.Parse_loop (mpt.String.Split '.' (Version.mk v).ToString) 0 0 = v
    rw [sfour h]
    show (((0 ||| ((mpt.String.Parse.Hex (mpt.fmt.HEX ((v >>> 24) &&& 0xFF)) &&& 0xff)
            <<< ((3 - 0) * 8)))
          ||| ((mpt.String.Parse.Hex (mpt.fmt.HEX0 2 ((v >>> 16) &&& 0xFF)) &&& 0xff)
            <<< ((3 - 1) * 8)))
          ||| ((mpt.String.Parse.Hex (mpt.fmt.HEX0 2 ((v >>> 8) &&& 0xFF)) &&& 0xff)
            <<< ((3 - 2) * 8)))
        ||| ((mpt.String.Parse.Hex (mpt.fmt.HEX0 2 (v &&& 0xFF)) &&& 0xff)
          <<< ((3 - 3) * 8)) = v
    rw [r3.1.2, r2.2.2, r1.2.2, r0.2.2, or_four_bytes _ _ _ _ l2 l1 l0, e3, e2, e1, e0]
    omega

/-- Witness for C27: version 1.18 (`0x01180000`) prints as the two-component `1.18` and
version 1.1F.02.03 as the four-component `1.1F.02.03`; both are read back. -/
theorem version_text_round_trip_witness :
    ((0x01180000 : Nat) < 2 ^ 32 ∧ (0x01180000 : Nat) ≠ 0) ∧
      (Version.Parse (Version.mk 0x01180000).ToString).m_Version = 0x01180000 ∧
      (Version.mk 0x01180000).ToString = "1.18".toList ∧
      (Version.mk 0x011F0203).ToString = "1.1F.02.03".toList ∧
      (Version.Parse "1.1F.02.03".toList).m_Version = 0x011F0203 :=
  ⟨⟨by norm_num, by decide⟩,
    (version_text_round_trip 0x01180000 (by norm_num) (by decide)).1,
    by decide, by decide, by decide⟩

/-! ## Test versions -/

/-- `IsTestVersion()` of a `uint32` version in arithmetic form: the three version
constants are `0x01170254`, `0x01180200` and `0x01180000`, and masking with
`0xFFFFFF00` clears the low byte. -/
theorem is_test_version_eq (v : Nat) (hv : v < 2 ^ 32) :
    (Version.mk v).IsTestVersion
      = ((decide (v > 0x01170254) && decide (v < 0x01180200) && decide (v ≠ 0x01180000))
        || (decide (v > 0x01180200) && decide (v / 256 * 256 ≠ v))) := by
  have m1 : (MAKE_VERSION_NUMERIC 0x1 0x17 0x02 0x54).m_Version = 0x01170254 := by decide
  have m2 : (MAKE_VERSION_NUMERIC 0x1 0x18 0x02 0x00).m_Version = 0x01180200 := by decide
  have m3 : (MAKE_VERSION_NUMERIC 0x1 0x18 0x00 0x00).m_Version = 0x01180000 := by decide
  unfold Version.IsTestVersion
  rw [m1, m2, m3]
  show (_ || (_ && decide (v &&& 0xFFFFFF00 ≠ v))) = _
  rw [and_high_mask v hv]

/-- C28: for every `uint32` version `v` whose raw value is at least `0x01180200`
(1.18.02.00), `IsTestVersion()` is true exactly when the low byte (the test number) of
`v` is non-zero; consequently `v.WithoutTestNumber()`, which is again at least
`0x01180200`, is not a test version. -/
theorem is_test_version_iff_low_byte (v : Nat) (hv : v < 2 ^ 32) (hge : 0x01180200 ≤ v) :
    ((Version.mk v).IsTestVersion = true ↔ v &&& 0xFF ≠ 0) ∧
      (Version.mk v).WithoutTestNumber.IsTestVersion = false ∧
      0x01180200 ≤ (Version.mk v).WithoutTestNumber.m_Version := by
  have hu : (Version.mk v).WithoutTestNumber = Version.mk (v / 256 * 256) := by
    show Version.mk (v &&& 0xFFFFFF00) = _
    rw [and_high_mask v hv]
  have hult : v / 256 * 256 < 2 ^ 32 := by omega
  refine ⟨?_, ?_, ?_⟩
  · rw [is_test_version_eq v hv, and_low_mask]
    simp only [Bool.or_eq_true, Bool.and_eq_true, decide_eq_true_eq]
    constructor
    · rintro (⟨⟨_, h2⟩, _⟩ | ⟨_, h2⟩)
      · omega
      · omega
    · intro h
      right
      constructor
      · omega
      · omega
  · rw [hu, is_test_version_eq _ hult]
    have h1 : decide (v / 256 * 256 < 0x01180200) = false := by
      rw [decide_eq_false_iff_not]
      omega
    have h2 : decide (v / 256 * 256 / 256 * 256 ≠ v / 256 * 256) = false := by
      rw [decide_eq_false_iff_not]
      omega
    rw [h1, h2]
    simp
  · rw [hu]
    show 0x01180200 ≤ v / 256 * 256
    omega

/-- Witness for C28: 1.28.00.05 (`0x01280005`) is a test version, and without its test
number it is not. -/
theorem is_test_version_iff_low_byte_witness :
    ((0x01280005 : Nat) < 2 ^ 32 ∧ (0x01180200 : Nat) ≤ 0x01280005) ∧
      ((Version.mk 0x01280005).IsTestVersion = true ↔ 0x01280005 &&& 0xFF ≠ 0) ∧
      (Version.mk 0x01280005).IsTestVersion = true ∧
      (Version.mk 0x01280005).WithoutTestNumber.IsTestVersion = false :=
  ⟨⟨by norm_num, by norm_num⟩,
    (is_test_version_iff_low_byte 0x01280005 (by norm_num) (by norm_num)).1,
    by decide,
    (is_test_version_iff_low_byte 0x01280005 (by norm_num) (by norm_num)).2.1⟩

/-! ## The source state string -/

/-- C29: for every combination of the dirty, mixed-revisions and package flags
`SourceInfo::GetStateString` returns `clean` when neither dirty nor mixed, otherwise
`+dirty` and/or `+mixed` in that order, followed by `-pkg` exactly when the package flag
is set; it is never empty, so the condition `!sourceInfo.GetStateString().empty()` in
`Build::GetVersionString` always holds. -/
theorem get_state_string_never_empty (si : SourceInfo) :
    si.GetStateString
        = (if si.m_IsDirty || si.m_HasMixedRevisions then
            (if si.m_IsDirty then "+dirty" else "")
              ++ (if si.m_HasMixedRevisions then "+mixed" else "")
          else "clean")
          ++ (if si.m_IsPackage then "-pkg" else "") ∧
      si.GetStateString ≠ "" ∧
      si.GetStateString.isEmpty = false ∧
      si.GetVersionString_state_condition = true := by
  have hne : ∀ s : String, s.isEmpty = false → s ≠ "" := by
    intro s hs e
    rw [e] at hs
    exact Bool.noConfusion hs
  obtain ⟨url, rev, dirty, mixed, pkg, date⟩ := si
  cases dirty <;> cases mixed <;> cases pkg <;> exact ⟨rfl, hne _ rfl, rfl, rfl⟩

end OpenMPT
